import Mathlib

/-! Shallow embedding of the extraction pipeline in `pkg/scraper/homes.go` of the
play-mcp repository, together with proofs about the specification claims on it.

Modelling conventions:
* Go byte indices and byte lengths are modelled as character indices and lengths
  (every input relevant to the verified claims is ASCII, where the two coincide).
* Go `int` fields that are only ever written with non-negative parser output are
  modelled as `Nat`; Go integer division on non-negative operands is `Nat` division.
* Go `float64` fields are modelled as `ℚ`; the verified claims only involve values
  on which `float64` arithmetic is exact.
* The external collaborators of the pipeline are modelled as explicit parameters:
  the HTTP transport as a fetch environment `String → FetchResult`, the goquery
  document as a `PageDoc` carrying the flattened text and the selector results,
  and the compiled regular expressions of the listing extractors as match oracles
  (`String → Option String` returning capture group 1).  The simple anchored
  patterns used by the statistics fallback and by the field parsers are modelled
  concretely, following Go's leftmost-first matching discipline.
-/

namespace Scraper

/-- Character class `[0-9,]` used by `parsePrice` (homes.go:538). -/
def isDigitComma (c : Char) : Bool := c.isDigit || c == ','

/-- Numeric value of a string of decimal digits. -/
def natOfDigits (cs : List Char) : Nat := cs.foldl (fun n c => n * 10 + (c.toNat - 48)) 0

/-- Largest value of Go's 64-bit `int`. -/
def maxInt64 : Nat := 9223372036854775807

/-- Model of `strconv.Atoi` restricted to the strings it receives in homes.go:
they consist of decimal digits only (possibly empty).  `Atoi("") = 0` with an
error that the callers discard; an out-of-range value is clamped to `maxInt64`
(per `strconv.ErrRange`, the discarded error). -/
def goAtoi (s : String) : Nat :=
  let cs := s.toList
  if cs.isEmpty then 0
  else if cs.all Char.isDigit then min (natOfDigits cs) maxInt64
  else 0

/-- Leftmost maximal run of characters satisfying `p`; this is exactly what
`regexp.MustCompile(class+).FindString` returns for a one-character-class
pattern such as `[0-9,]+` or `[0-9]+` (leftmost-first with a greedy class). -/
def findRun (p : Char → Bool) : List Char → Option (List Char)
  | [] => none
  | c :: t => if p c then some (c :: t.takeWhile p) else findRun p t

/-- Model of `parsePrice` (homes.go:536-547): first `[0-9,]+` run, commas removed,
parsed with `strconv.Atoi` (error discarded). -/
def parsePrice (s : String) : Nat :=
  match findRun isDigitComma s.toList with
  | none => 0
  | some run => goAtoi (String.mk (run.filter fun c => c ≠ ','))

/-- Model of `parseInt` (homes.go:549-558): first `[0-9]+` run parsed with `Atoi`. -/
def parseInt (s : String) : Nat :=
  match findRun Char.isDigit s.toList with
  | none => 0
  | some run => goAtoi (String.mk run)

/-- Integer and fractional digit lists of a number starting with digit `c`,
following the greedy pattern `[0-9]+\.?[0-9]*` (a trailing dot with no digits
after it is consumed, as in Go). -/
def numTail (c : Char) (t : List Char) : List Char × List Char :=
  let ip := c :: t.takeWhile Char.isDigit
  match t.dropWhile Char.isDigit with
  | '.' :: r => (ip, r.takeWhile Char.isDigit)
  | _ => (ip, [])

/-- Rational value of an integer part and a fractional part given as digit lists. -/
def ratOfParts (ip fp : List Char) : ℚ :=
  (natOfDigits ip : ℚ) + (natOfDigits fp : ℚ) / ((10 : ℚ) ^ fp.length)

/-- Leftmost match of `[0-9]+\.?[0-9]*`, as integer/fraction digit lists. -/
def floatScan : List Char → Option (List Char × List Char)
  | [] => none
  | c :: t => if c.isDigit then some (numTail c t) else floatScan t

/-- Model of `parseFloat` (homes.go:560-569): leftmost `[0-9]+\.?[0-9]*` match,
parsed exactly (Go parses to `float64`; the claims only use exact values). -/
def parseFloat (s : String) : ℚ :=
  match floatScan s.toList with
  | none => 0
  | some (ip, fp) => ratOfParts ip fp

/-- Leftmost match of `-?[0-9]+\.?[0-9]*`: sign flag plus digit lists.  At a `'-'`
the greedy `-?` participates only when a digit follows (otherwise the mandatory
`[0-9]+` fails and the scan moves on), matching Go's leftmost-first semantics. -/
def percentScan : List Char → Option (Bool × List Char × List Char)
  | [] => none
  | c :: t =>
    if c.isDigit then some (false, numTail c t)
    else
      match t with
      | d :: t2 => if c = '-' && d.isDigit then some (true, numTail d t2) else percentScan (d :: t2)
      | [] => none

/-- Model of `parsePercent` (homes.go:571-580). -/
def parsePercent (s : String) : ℚ :=
  match percentScan s.toList with
  | none => 0
  | some (neg, ip, fp) => (if neg then -1 else 1) * ratOfParts ip fp

/-- Model of `strings.ToLower` (ASCII; all verified inputs are ASCII). -/
def goToLower (s : String) : String := String.mk (s.toList.map Char.toLower)

/-- Model of `strings.ToUpper` (ASCII; all verified inputs are ASCII). -/
def goToUpper (s : String) : String := String.mk (s.toList.map Char.toUpper)

/-- First character index at which `needle` occurs in the haystack, i.e. the
model of `strings.Index` (with `none` for Go's `-1`). -/
def subIndex (needle : List Char) : List Char → Option Nat
  | [] => if needle.isEmpty then some 0 else none
  | c :: t => if needle.isPrefixOf (c :: t) then some 0 else (subIndex needle t).map (· + 1)

/-- Model of `strings.Index` on strings. -/
def goIndex (s sub : String) : Option Nat := subIndex sub.toList s.toList

/-- Model of `strings.Contains`. -/
def strContains (s sub : String) : Bool := (goIndex s sub).isSome

/-- Model of `strings.TrimSpace` (whitespace per `Char.isWhitespace`; the verified
inputs only involve ASCII whitespace, where this agrees with Go). -/
def goTrim (s : String) : String :=
  String.mk (((s.toList.dropWhile Char.isWhitespace).reverse.dropWhile Char.isWhitespace).reverse)

/-- Split on a single-character separator; `strings.Split` for a one-character
separator string, which is the only way homes.go uses it. -/
def splitCh (sep : Char) : List Char → List (List Char)
  | [] => [[]]
  | c :: t =>
    match splitCh sep t with
    | [] => [[]]
    | h :: r => if c = sep then [] :: h :: r else (c :: h) :: r

/-- Model of `strings.Split s sep` for a one-character separator. -/
def goSplit (s : String) (sep : Char) : List String := (splitCh sep s.toList).map String.mk

/-- Last index of character `c`, the model of `strings.LastIndex` for the
one-character needle `"-"` used in homes.go (with `none` for Go's `-1`). -/
def lastIdxOf (c : Char) (cs : List Char) : Option Nat :=
  (cs.reverse.findIdx? (· = c)).map (fun i => cs.length - 1 - i)

/-- Word separator of `strings.Title` (Go's `isSeparator`): in ASCII everything
except alphanumerics and `'_'`; outside ASCII the verified inputs do not occur,
and whitespace is the separator. -/
def titleSep (c : Char) : Bool :=
  if c.toNat ≤ 0x7F then !(c.isDigit || c.isLower || c.isUpper || c == '_')
  else c.isWhitespace

/-- Model of `strings.Title`: map each character to title case when the previous
character is a separator (the previous character starts out as `' '`). -/
def goTitle (s : String) : String :=
  String.mk (s.toList.foldl
    (fun (acc : List Char × Char) c =>
      (acc.1 ++ [if titleSep acc.2 then c.toUpper else c], c)) ([], ' ')).1

/-- Model of `strings.ReplaceAll s " " "-"` (one-character pattern). -/
def goSpaceToDash (s : String) : String :=
  String.mk (s.toList.map (fun c => if c = ' ' then '-' else c))

/-- Model of `strings.Join` with a one-character separator, as used for the
address components (homes.go:832). -/
def goJoin (sep : String) : List String → String
  | [] => ""
  | [x] => x
  | x :: y :: t => x ++ sep ++ goJoin sep (y :: t)

/-- Model of `generatePropertyID` (homes.go:582-594): lower-case `address ++ city`,
strip everything outside `[a-z0-9]` (the regexp `[^a-z0-9]+` replaced by `""`),
truncate to 25 bytes, fall back to `"unknown"` when empty, prefix `"prop_"`. -/
def generatePropertyID (address city : String) : String :=
  let combined := goToLower (address ++ city)
  let cleaned := String.mk (combined.toList.filter fun c => c.isLower || c.isDigit)
  let cleaned := if 25 < cleaned.length then String.mk (cleaned.toList.take 25) else cleaned
  let cleaned := if cleaned = "" then "unknown" else cleaned
  "prop_" ++ cleaned

/-- The listing record (`Property`, homes.go:22-68).  Field defaults are the Go
zero values with which every record is constructed. -/
structure Property where
  ID : String := ""
  Address : String := ""
  City : String := ""
  State : String := ""
  ZipCode : String := ""
  Price : Nat := 0
  Bedrooms : Nat := 0
  Bathrooms : ℚ := 0
  SquareFeet : Nat := 0
  LotSize : ℚ := 0
  PricePerSqFt : Nat := 0
  YearBuilt : Nat := 0
  PropertyType : String := ""
  Status : String := ""
  SoldDate : String := ""
  DaysOnMarket : Nat := 0
  Description : String := ""
  Features : List String := []
  Agent : String := ""
  Brokerage : String := ""
  PropertyCondition : String := ""
  SchoolDistrict : String := ""
  ElementarySchool : String := ""
  MiddleSchool : String := ""
  HighSchool : String := ""
  SchoolRatings : List String := []
  Neighborhood : String := ""
  PropertyTax : String := ""
  HOAFees : String := ""
  ParkingSpaces : Nat := 0
  Garage : String := ""
  Heating : String := ""
  Cooling : String := ""
  Flooring : List String := []
  Appliances : List String := []
  LastRenovated : String := ""
  PriceHistory : List String := []
  NearbyComparables : List String := []
  WalkScore : String := ""
  TransitScore : String := ""
  DistanceToBeach : String := ""
  DistanceToDowntown : String := ""
  FloodZone : String := ""
  HomeInsurance : String := ""
deriving DecidableEq, Repr

/-- The market statistics record (`MarketStats`, homes.go:71-83). -/
structure MarketStats where
  Area : String := ""
  MedianSalePrice : Nat := 0
  MedianSingleFamilyPrice : Nat := 0
  MedianTownhousePrice : Nat := 0
  AveragePricePerSqFt : Nat := 0
  HomesForSale : Nat := 0
  SalesLast12Months : Nat := 0
  AverageDaysOnMarket : Nat := 0
  MonthsOfSupply : ℚ := 0
  YearOverYearChange : ℚ := 0
  Timestamp : String := ""
deriving DecidableEq, Repr

/-- Abstraction of the goquery document: the flattened text (`doc.Text()`) and
the text contents delivered by the CSS selectors homes.go uses.  `trendRows`
are the `(first td, last td)` text pairs of the rows found under
`.housing-trends tr`; the remaining lists serve `scrapeRedfinProperty`. -/
structure PageDoc where
  text : String := ""
  trendRows : List (String × String) := []
  remarkTexts : List String := []
  amenityItems : List String := []
  agentTexts : List String := []
deriving DecidableEq, Repr

/-- Outcome of one HTTP GET as the pipeline observes it: a transport-level error
(`client.Do` failing; request construction failure behaves identically), or a
response with its status code, status text and the result of feeding the body
to `goquery.NewDocumentFromReader`. -/
inductive FetchResult where
  | transportError (msg : String)
  | response (statusCode : Nat) (status : String) (doc : Except String PageDoc)
deriving Repr

/-! Text-proximity page extractor (`scrapePage`, homes.go:329-466).  The seven
compiled patterns of homes.go:364-371 live in the external `regexp` engine; they
are modelled as a match oracle delivering, per input text, the full matches of
the address anchor (`FindAllString`) and capture group 1 of each field pattern
(`FindStringSubmatch`).  Every claim proved about `scrapePage` holds for every
oracle, i.e. for arbitrary behaviour of the pattern matcher. -/

/-- Match oracle for the compiled regexps of `scrapePage` (homes.go:364-371). -/
structure PageRegexes where
  findAddresses : String → List String
  findPrice : String → Option String
  findSqft : String → Option String
  findBed : String → Option String
  findBath : String → Option String
  findSold : String → Option String
  findDays : String → Option String
  findYear : String → Option String

/-- Price step of the per-chunk extraction (homes.go:412-414). -/
def updPrice (o : Option String) (p : Property) : Property :=
  match o with
  | some m => { p with Price := parsePrice m }
  | none => p

/-- Square-feet step (homes.go:417-419). -/
def updSqft (o : Option String) (p : Property) : Property :=
  match o with
  | some m => { p with SquareFeet := parseInt m }
  | none => p

/-- Bedrooms step (homes.go:422-424). -/
def updBed (o : Option String) (p : Property) : Property :=
  match o with
  | some m => { p with Bedrooms := parseInt m }
  | none => p

/-- Bathrooms step (homes.go:427-429). -/
def updBath (o : Option String) (p : Property) : Property :=
  match o with
  | some m => { p with Bathrooms := parseFloat m }
  | none => p

/-- Sold-date step (homes.go:432-434). -/
def updSold (o : Option String) (p : Property) : Property :=
  match o with
  | some m => { p with SoldDate := m }
  | none => p

/-- Days-on-market step (homes.go:437-439). -/
def updDays (o : Option String) (p : Property) : Property :=
  match o with
  | some m => { p with DaysOnMarket := parseInt m }
  | none => p

/-- Year-built step (homes.go:442-444). -/
def updYear (o : Option String) (p : Property) : Property :=
  match o with
  | some m => { p with YearBuilt := parseInt m }
  | none => p

/-- The seven independent field extractions applied to the proximity window, in
source order (homes.go:411-444). -/
def applyChunkFields (rx : PageRegexes) (chunk : String) (p : Property) : Property :=
  updYear (rx.findYear chunk) (updDays (rx.findDays chunk) (updSold (rx.findSold chunk)
    (updBath (rx.findBath chunk) (updBed (rx.findBed chunk) (updSqft (rx.findSqft chunk)
      (updPrice (rx.findPrice chunk) p))))))

/-- The proximity window around the anchor offset: 500 characters before and
1000 after, clamped to the text (homes.go:400-409; byte offsets modelled as
character offsets). -/
def windowChunk (text : String) (idx : Nat) : String :=
  let cs := text.toList
  let start := idx - 500
  let stop := min (idx + 1000) cs.length
  String.mk ((cs.drop start).take (stop - start))

/-- Address parsing of the per-anchor loop (homes.go:386-392): split the anchor
on commas; with at least three segments, the first trimmed segment is the
address and the city, state and postal code are assigned the constants
`"Honolulu"`, `"HI"`, `"96822"`; otherwise nothing is assigned. -/
def addrFields (address : String) (p : Property) : Property :=
  if 3 ≤ (goSplit address ',').length then
    { p with Address := goTrim ((goSplit address ',').headD ""), City := "Honolulu",
             State := "HI", ZipCode := "96822" }
  else p

/-- Tail of the per-anchor loop (homes.go:446-457): price-per-area when both
price and area are positive, the default property type, and the identifier
when the address is non-empty. -/
def finishCandidate (p : Property) : Property :=
  let p := if 0 < p.Price ∧ 0 < p.SquareFeet then
      { p with PricePerSqFt := p.Price / p.SquareFeet }
    else p
  let p := { p with PropertyType := "house" }
  if p.Address ≠ "" then { p with ID := generatePropertyID p.Address p.City } else p

/-- Admission rule of the per-anchor loop (homes.go:459-462): the record is
appended only when it has a non-empty address and a positive price. -/
def admissible (p : Property) : Option Property :=
  if p.Address ≠ "" ∧ 0 < p.Price then some p else none

/-- One iteration of the per-anchor loop of `scrapePage` (homes.go:376-463):
`none` models `continue`/non-admission, `some` an appended record.  The
record starts from the Go zero value with status `"sold"` (homes.go:381-383);
an anchor that does not occur in the page text is skipped (homes.go:395-398). -/
def extractAt (rx : PageRegexes) (pageText : String) (address : String) : Option Property :=
  if address = "" then none
  else
    match goIndex pageText address with
    | none => none
    | some idx =>
      admissible (finishCandidate (applyChunkFields rx (windowChunk pageText idx)
        (addrFields address { Status := "sold" })))

/-- Model of `scrapePage` (homes.go:329-466) over one observed fetch outcome:
transport errors and non-200 statuses and document-parse failures are returned
as errors (homes.go:342-355); otherwise the per-anchor loop runs on the
flattened text. -/
def scrapePageGo (rx : PageRegexes) (fr : FetchResult) : Except String (List Property) :=
  match fr with
  | .transportError e => .error e
  | .response code status doc =>
    if code ≠ 200 then .error ("HTTP " ++ toString code ++ ": " ++ status)
    else
      match doc with
      | .error e => .error e
      | .ok d => .ok ((rx.findAddresses d.text).filterMap (extractAt rx d.text))

/-! Pagination and dedup controller (`ScrapeNeighborhood`, homes.go:117-161). -/

/-- Go map insertion on the association-list model of `map[string]Property`. -/
def mapInsert : List (String × Property) → String → Property → List (String × Property)
  | [], k, v => [(k, v)]
  | (k0, v0) :: t, k, v =>
    if k0 = k then (k0, v) :: t else (k0, v0) :: mapInsert t k v

/-- Go map lookup on the association-list model. -/
def mapLookup : List (String × Property) → String → Option Property
  | [], _ => none
  | (k0, v0) :: t, k => if k0 = k then some v0 else mapLookup t k

/-- The per-page insertion loop (homes.go:142-146): records with a non-empty
identifier are inserted, overwriting earlier records with the same identifier. -/
def insertAll (m : List (String × Property)) (l : List Property) : List (String × Property) :=
  l.foldl (fun m p => if p.ID ≠ "" then mapInsert m p.ID p else m) m

/-- URL of page `page` for a neighborhood crawl (homes.go:122-132). -/
def pageURL (city state neighborhood status : String) (page : Nat) : String :=
  let cityState := goToLower city ++ "-" ++ goToLower state
  let slug := goToLower (goSpaceToDash neighborhood)
  if page = 1 then
    "https://www.homes.com/" ++ cityState ++ "/" ++ slug ++ "-neighborhood/" ++ status ++ "/"
  else
    "https://www.homes.com/" ++ cityState ++ "/" ++ slug ++ "-neighborhood/" ++ status ++
      "/p" ++ toString page ++ "/"

/-- Observable behaviour of one crawl: the pages it attempted to fetch in order,
the records the successful pages yielded in order (both are logged by the Go
code), and the returned value — the dedup map on success (Go returns its values
in unspecified map-iteration order), or the error. -/
structure CrawlResult where
  pagesFetched : List Nat
  yielded : List Property
  outcome : Except String (List (String × Property))

/-- The page loop of `ScrapeNeighborhood` (homes.go:126-152): fetch the page,
abort the whole crawl on failure tagging the page number, insert the yielded
records into the dedup map, and stop after a page with fewer than 20 records.
`remaining` counts the loop iterations still allowed (`page <= 3`). -/
def crawlLoop (fetch : String → Except String (List Property)) (urlOf : Nat → String) :
    Nat → Nat → List Nat → List Property → List (String × Property) → CrawlResult
  | 0, _, pages, yield, m => ⟨pages, yield, .ok m⟩
  | remaining + 1, page, pages, yield, m =>
    match fetch (urlOf page) with
    | .error e =>
      ⟨pages ++ [page], yield, .error ("failed to scrape page " ++ toString page ++ ": " ++ e)⟩
    | .ok props =>
      let m := insertAll m props
      if props.length < 20 then ⟨pages ++ [page], yield ++ props, .ok m⟩
      else crawlLoop fetch urlOf remaining (page + 1) (pages ++ [page]) (yield ++ props) m

/-- Model of `ScrapeNeighborhood` (homes.go:117-161), parameterised by the page
fetcher (`h.scrapePage` composed with the HTTP environment). -/
def ScrapeNeighborhood (fetch : String → Except String (List Property))
    (city state neighborhood status : String) : CrawlResult :=
  crawlLoop fetch (pageURL city state neighborhood status) 3 1 [] [] []

/-! Statistics extractor (`ScrapeNeighborhoodStats`, homes.go:163-245, and
`ScrapeMarketStats`, homes.go:247-327).  The fallback patterns are all of the
shape literal-prefix + one-character-class-plus + literal-suffix, with the
suffix absent or starting outside the class; for such patterns Go's
leftmost-first matching returns, at the leftmost feasible start, the maximal
class run, which `reFind` below implements concretely. -/

/-- Candidate match at the head of `s`: the literal prefix, then a non-empty
maximal run of class characters, then the literal suffix. -/
def tryMatch (pre : List Char) (cls : Char → Bool) (suf : List Char) (s : List Char) :
    Option (List Char) :=
  if pre.isPrefixOf s then
    let rest := s.drop pre.length
    let run := rest.takeWhile cls
    if run.isEmpty then none
    else if suf.isPrefixOf (rest.drop run.length) then some run else none
  else none

/-- Leftmost match of a prefix/class-run/suffix pattern, returning the run
(capture group 1). -/
def reFindAux (pre : List Char) (cls : Char → Bool) (suf : List Char) :
    List Char → Option (List Char)
  | [] => none
  | c :: t =>
    match tryMatch pre cls suf (c :: t) with
    | some run => some run
    | none => reFindAux pre cls suf t

/-- String-level wrapper of `reFindAux`. -/
def reFind (pre : String) (cls : Char → Bool) (suf : String) (s : String) : Option String :=
  (reFindAux pre.toList cls suf.toList s.toList).map String.mk

/-- One labeled row of the structured statistics pass: the `switch` of
homes.go:198-218 (identical at homes.go:280-300), with the cases tested in
source order and substring matching on the trimmed label. -/
def applyTrendRow (st : MarketStats) (row : String × String) : MarketStats :=
  let label := goTrim row.1
  let value := goTrim row.2
  if strContains label "Median Sale Price" then { st with MedianSalePrice := parsePrice value }
  else if strContains label "Median Single Family Sale Price" then
    { st with MedianSingleFamilyPrice := parsePrice value }
  else if strContains label "Median Townhouse Sale Price" then
    { st with MedianTownhousePrice := parsePrice value }
  else if strContains label "Average Price Per Sq Ft" then
    { st with AveragePricePerSqFt := parsePrice value }
  else if strContains label "Number of Homes for Sale" then
    { st with HomesForSale := parseInt value }
  else if strContains label "Last 12 months Home Sales" then
    { st with SalesLast12Months := parseInt value }
  else if strContains label "YoY Change" then
    { st with YearOverYearChange := parsePercent value }
  else st

/-- Result of the structured (labeled-row) pass of `ScrapeNeighborhoodStats`
starting from the freshly constructed record (homes.go:191-219). -/
def structuredStats (now city state neighborhood : String)
    (rows : List (String × String)) : MarketStats :=
  rows.foldl applyTrendRow
    { Area := neighborhood ++ ", " ++ city ++ ", " ++ state, Timestamp := now }

/-- Fallback step for `Median Sale Price \$([0-9,]+)` (homes.go:224-226). -/
def fbMedian (o : Option String) (st : MarketStats) : MarketStats :=
  match o with
  | some m => { st with MedianSalePrice := parsePrice m }
  | none => st

/-- Fallback step for `Average Price Per Sq Ft \$([0-9,]+)` (homes.go:227-229). -/
def fbAvgSqFt (o : Option String) (st : MarketStats) : MarketStats :=
  match o with
  | some m => { st with AveragePricePerSqFt := parsePrice m }
  | none => st

/-- Fallback step for `([0-9]+) days on the market` (homes.go:230-232). -/
def fbDaysOnMkt (o : Option String) (st : MarketStats) : MarketStats :=
  match o with
  | some m => { st with AverageDaysOnMarket := parseInt m }
  | none => st

/-- Fallback step for `down ([0-9]+)%` (homes.go:233-235): the captured digits
get a percent sign appended, are parsed, and the result is negated. -/
def fbDown (o : Option String) (st : MarketStats) : MarketStats :=
  match o with
  | some m => { st with YearOverYearChange := -parsePercent (m ++ "%") }
  | none => st

/-- Fallback step for the homes-for-sale count (homes.go:236-238 resp. 318-320). -/
def fbHomes (o : Option String) (st : MarketStats) : MarketStats :=
  match o with
  | some m => { st with HomesForSale := parseInt m }
  | none => st

/-- Fallback step for `([0-9]+) home sales` (homes.go:239-241). -/
def fbSales (o : Option String) (st : MarketStats) : MarketStats :=
  match o with
  | some m => { st with SalesLast12Months := parseInt m }
  | none => st

/-- The anchored free-text fallback of `ScrapeNeighborhoodStats`
(homes.go:222-242), applied to the whole flattened page text; each pattern is
applied independently and only overwrites its metric on a match. -/
def statsFallback (text : String) (st : MarketStats) : MarketStats :=
  fbSales (reFind "" Char.isDigit " home sales" text)
    (fbHomes (reFind "" Char.isDigit " homes for sale in" text)
      (fbDown (reFind "down " Char.isDigit "%" text)
        (fbDaysOnMkt (reFind "" Char.isDigit " days on the market" text)
          (fbAvgSqFt (reFind "Average Price Per Sq Ft $" isDigitComma "" text)
            (fbMedian (reFind "Median Sale Price $" isDigitComma "" text) st)))))

/-- Target URL of `ScrapeNeighborhoodStats` (homes.go:165-167). -/
def neighborhoodStatsURL (city state neighborhood : String) : String :=
  "https://www.homes.com/" ++ goToLower city ++ "-" ++ goToLower state ++ "/" ++
    goToLower (goSpaceToDash neighborhood) ++ "-neighborhood/sold/"

/-- Model of `ScrapeNeighborhoodStats` (homes.go:163-245).  A transport error or
a document-parse error is returned as an error; note that the Go code never
inspects `resp.StatusCode` here, so the response body is processed whatever the
status code was.  `now` stands for `time.Now().Format(time.RFC3339)`. -/
def ScrapeNeighborhoodStats (env : String → FetchResult) (now city state neighborhood : String) :
    Except String MarketStats :=
  match env (neighborhoodStatsURL city state neighborhood) with
  | .transportError e => .error e
  | .response _code _status docRes =>
    match docRes with
    | .error e => .error e
    | .ok d =>
      let stats := structuredStats now city state neighborhood d.trendRows
      if stats.MedianSalePrice = 0 then .ok (statsFallback d.text stats) else .ok stats

/-- The fallback of `ScrapeMarketStats` (homes.go:304-324): identical to
`statsFallback` except that the homes-for-sale pattern is
`([0-9]+) homes in Manoa` (homes.go:318). -/
def marketFallback (text : String) (st : MarketStats) : MarketStats :=
  fbSales (reFind "" Char.isDigit " home sales" text)
    (fbHomes (reFind "" Char.isDigit " homes in Manoa" text)
      (fbDown (reFind "down " Char.isDigit "%" text)
        (fbDaysOnMkt (reFind "" Char.isDigit " days on the market" text)
          (fbAvgSqFt (reFind "Average Price Per Sq Ft $" isDigitComma "" text)
            (fbMedian (reFind "Median Sale Price $" isDigitComma "" text) st)))))

/-- Target URL of `ScrapeMarketStats` (homes.go:249). -/
def marketStatsURL (city state : String) : String :=
  "https://www.homes.com/" ++ goToLower city ++ "-" ++ goToLower state ++
    "/manoa-neighborhood/sold/"

/-- Model of `ScrapeMarketStats` (homes.go:247-327); like
`ScrapeNeighborhoodStats`, the status code of the response is never inspected. -/
def ScrapeMarketStats (env : String → FetchResult) (now city state : String) :
    Except String MarketStats :=
  match env (marketStatsURL city state) with
  | .transportError e => .error e
  | .response _code _status docRes =>
    match docRes with
    | .error e => .error e
    | .ok d =>
      let stats0 : MarketStats := { Area := city ++ ", " ++ state, Timestamp := now }
      let stats := d.trendRows.foldl applyTrendRow stats0
      if stats.MedianSalePrice = 0 then .ok (marketFallback d.text stats) else .ok stats

/-! Second-site detail extractor (`scrapeRedfinProperty`, homes.go:800-1076). -/

/-- Match oracle for the compiled regexps of the Redfin success path
(homes.go:881-900 and 985, plus the eight feature patterns of
homes.go:1003-1012).  Each function returns capture group 1 of
`FindStringSubmatch` (for the parking pattern, groups 1 and 2). -/
structure RedfinRegexes where
  findPrice : String → Option String
  findSqft : String → Option String
  findBed : String → Option String
  findBath : String → Option String
  findYear : String → Option String
  findSold : String → Option String
  findLot : String → Option String
  findDaysOnMarket : String → Option String
  findDistrict : String → Option String
  findElementary : String → Option String
  findMiddle : String → Option String
  findHigh : String → Option String
  findCondition : String → Option String
  findTax : String → Option String
  findHOA : String → Option String
  findParking : String → Option (String × String)
  findDesc : String → Option String
  featureMatchers : List (String → Option String)

/-- Address reconstruction from the Redfin URL grammar (homes.go:804-838):
find the first path segment that is two characters long and equal to its
upper-casing, read it as the state, the next segment as the city, and split the
segment after that on its last hyphen into the hyphens-to-spaces title-cased
address and the postal code. -/
def redfinFromURL (url : String) : Property :=
  let p : Property := { Status := "sold" }
  let urlParts := goSplit url '/'
  match urlParts.findIdx? (fun part => part.length = 2 && goToUpper part = part) with
  | none => p
  | some i =>
    let p := { p with State := urlParts.getD i "" }
    let p := if i + 1 < urlParts.length then { p with City := urlParts.getD (i + 1) "" } else p
    if i + 2 < urlParts.length then
      let addressPart := urlParts.getD (i + 2) ""
      match lastIdxOf '-' addressPart.toList with
      | some li =>
        if 0 < li then
          let address := String.mk (addressPart.toList.take li)
          let zip := String.mk (addressPart.toList.drop (li + 1))
          { p with
            Address := goJoin " " ((goSplit address '-').map goTitle),
            ZipCode := zip }
        else p
      | none => p
    else p

/-- The best-effort return of the failure branches of `scrapeRedfinProperty`
(homes.go:844-845, 857-858, 864-865, 871-872): the URL-parsed record with its
identifier generated. -/
def redfinBestEffort (p : Property) : Property :=
  { p with ID := generatePropertyID p.Address p.City }

/-- Lot-size step of the Redfin success path (homes.go:927-929). -/
def updLot (o : Option String) (p : Property) : Property :=
  match o with
  | some m => { p with LotSize := parseFloat m }
  | none => p

/-- The basic field extractions of the Redfin success path in source order
(homes.go:902-933): price, square feet, bedrooms, bathrooms, year built,
sold date, lot size, days on market. -/
def redfinBasicFields (rx : RedfinRegexes) (text : String) (p : Property) : Property :=
  updDays (rx.findDaysOnMarket text) (updLot (rx.findLot text) (updSold (rx.findSold text)
    (updYear (rx.findYear text) (updBath (rx.findBath text) (updBed (rx.findBed text)
      (updSqft (rx.findSqft text) (updPrice (rx.findPrice text) p)))))))

/-- School information steps (homes.go:935-950). -/
def redfinSchoolFields (rx : RedfinRegexes) (text : String) (p : Property) : Property :=
  let p := match rx.findDistrict text with
    | some m => { p with SchoolDistrict := goTrim m }
    | none => p
  let p := match rx.findElementary text with
    | some m => { p with ElementarySchool := goTrim m }
    | none => p
  let p := match rx.findMiddle text with
    | some m => { p with MiddleSchool := goTrim m }
    | none => p
  match rx.findHigh text with
  | some m => { p with HighSchool := goTrim m }
  | none => p

/-- Condition, tax, HOA and parking steps (homes.go:952-973). -/
def redfinConditionFields (rx : RedfinRegexes) (text : String) (p : Property) : Property :=
  let p := match rx.findCondition text with
    | some m => { p with PropertyCondition := goTrim m }
    | none => p
  let p := match rx.findTax text with
    | some m => { p with PropertyTax := "$" ++ m }
    | none => p
  let p := match rx.findHOA text with
    | some m => { p with HOAFees := "$" ++ m }
    | none => p
  match rx.findParking text with
  | some (g1, g2) =>
    if g1 ≠ "" then { p with ParkingSpaces := parseInt g1, Garage := g1 ++ " car garage" }
    else if g2 ≠ "" then { p with ParkingSpaces := parseInt g2 }
    else p
  | none => p

/-- One remark element of the description extraction (homes.go:976-981): keep
the trimmed text when it is non-empty and longer than the current description. -/
def descStep (p : Property) (t : String) : Property :=
  if goTrim t ≠ "" ∧ p.Description.length < (goTrim t).length then
    { p with Description := goTrim t }
  else p

/-- Description extraction (homes.go:975-989): keep the longest non-empty
trimmed remark element, then fall back to the description pattern. -/
def redfinDescription (rx : RedfinRegexes) (d : PageDoc) (p : Property) : Property :=
  let p := d.remarkTexts.foldl descStep p
  if p.Description = "" then
    match rx.findDesc d.text with
    | some m => { p with Description := goTrim m }
    | none => p
  else p

/-- The features list (homes.go:991-1019): trimmed amenity items shorter than
100 characters, then one trimmed capture per feature pattern that matches. -/
def redfinFeatures (rx : RedfinRegexes) (d : PageDoc) : List String :=
  let features := d.amenityItems.foldl
    (fun acc t =>
      let f := goTrim t
      if f ≠ "" ∧ f.length < 100 then acc ++ [f] else acc) []
  rx.featureMatchers.foldl
    (fun acc fm =>
      match fm d.text with
      | some m => acc ++ [goTrim m]
      | none => acc) features

/-- One feature of the feature-driven field assignment (homes.go:1022-1036):
the four keyword checks run in sequence on the lower-cased feature. -/
def featureStep (p : Property) (f : String) : Property :=
  let lower := goToLower f
  let p := if strContains lower "heating" then { p with Heating := f } else p
  let p := if strContains lower "cooling" || strContains lower "air" then
      { p with Cooling := f }
    else p
  let p := if strContains lower "floor" then { p with Flooring := p.Flooring ++ [f] } else p
  if strContains lower "appliance" then { p with Appliances := p.Appliances ++ [f] } else p

/-- Field assignment driven by the extracted features (homes.go:1021-1036). -/
def redfinFeatureFields (features : List String) (p : Property) : Property :=
  features.foldl featureStep p

/-- One selector element of the agent/brokerage extraction (homes.go:1046-1054). -/
def agentStep (p : Property) (t0 : String) : Property :=
  let text := goTrim t0
  let p := if strContains (goToLower text) "agent" ∧ p.Agent = "" then
      { p with Agent := text }
    else p
  if strContains (goToLower text) "broker" ∧ p.Brokerage = "" then
    { p with Brokerage := text }
  else p

/-- Agent and brokerage extraction (homes.go:1045-1054). -/
def redfinAgent (d : PageDoc) (p : Property) : Property :=
  d.agentTexts.foldl agentStep p

/-- Property-type detection by keyword presence (homes.go:1056-1065). -/
def redfinType (text : String) (p : Property) : Property :=
  let p := { p with PropertyType := "house" }
  let lowerText := goToLower text
  if strContains lowerText "condominium" || strContains lowerText "condo" then
    { p with PropertyType := "condo" }
  else if strContains lowerText "townhouse" || strContains lowerText "townhome" then
    { p with PropertyType := "townhouse" }
  else if strContains lowerText "apartment" then { p with PropertyType := "apartment" }
  else p

/-- Feature collection and assignment (homes.go:991-1038): the per-feature field
loop runs, then the collected list is stored in the record. -/
def redfinWithFeatures (rx : RedfinRegexes) (d : PageDoc) (p : Property) : Property :=
  { redfinFeatureFields (redfinFeatures rx d) p with Features := redfinFeatures rx d }

/-- Neighborhood assignment (homes.go:1040-1043). -/
def redfinNbhd (p : Property) : Property :=
  if p.City = "Honolulu" ∧ p.ZipCode = "96822" then { p with Neighborhood := "Manoa" } else p

/-- Tail of the Redfin success path (homes.go:1067-1073): the identifier is
generated unconditionally, then price-per-area is computed when both price and
area are positive. -/
def redfinFinish (p : Property) : Property :=
  let q : Property := { p with ID := generatePropertyID p.Address p.City }
  if 0 < q.Price ∧ 0 < q.SquareFeet then { q with PricePerSqFt := q.Price / q.SquareFeet }
  else q

/-- The success path of `scrapeRedfinProperty` after a 200 response with a
parseable document (homes.go:875-1075), in source order. -/
def redfinSuccess (rx : RedfinRegexes) (d : PageDoc) (p : Property) : Property :=
  redfinFinish (redfinType d.text (redfinAgent d (redfinNbhd (redfinWithFeatures rx d
    (redfinDescription rx d (redfinConditionFields rx d.text (redfinSchoolFields rx d.text
      (redfinBasicFields rx d.text p))))))))

/-- Model of `scrapeRedfinProperty` (homes.go:800-1076).  Every branch of the Go
function returns a `nil` error; a transport failure, a non-200 status or an
unparseable body each yield the best-effort URL-parsed record
(homes.go:854-873). -/
def scrapeRedfinProperty (rx : RedfinRegexes) (env : String → FetchResult) (url : String) :
    Except String Property :=
  let p := redfinFromURL url
  match env url with
  | .transportError _ => .ok (redfinBestEffort p)
  | .response code _status docRes =>
    if code ≠ 200 then .ok (redfinBestEffort p)
    else
      match docRes with
      | .error _ => .ok (redfinBestEffort p)
      | .ok d => .ok (redfinSuccess rx d p)

/-! Preservation lemmas: each single-field update step leaves every other field
unchanged.  They are stated for the projections the claim proofs need. -/

@[simp] theorem updPrice_Address (o : Option String) (p : Property) : (updPrice o p).Address = p.Address := by cases o <;> rfl

@[simp] theorem updPrice_City (o : Option String) (p : Property) : (updPrice o p).City = p.City := by cases o <;> rfl

@[simp] theorem updPrice_State (o : Option String) (p : Property) : (updPrice o p).State = p.State := by cases o <;> rfl

@[simp] theorem updPrice_ZipCode (o : Option String) (p : Property) : (updPrice o p).ZipCode = p.ZipCode := by cases o <;> rfl

@[simp] theorem updPrice_Status (o : Option String) (p : Property) : (updPrice o p).Status = p.Status := by cases o <;> rfl

@[simp] theorem updPrice_PricePerSqFt (o : Option String) (p : Property) : (updPrice o p).PricePerSqFt = p.PricePerSqFt := by cases o <;> rfl

@[simp] theorem updPrice_SquareFeet (o : Option String) (p : Property) : (updPrice o p).SquareFeet = p.SquareFeet := by cases o <;> rfl

@[simp] theorem updSqft_Address (o : Option String) (p : Property) : (updSqft o p).Address = p.Address := by cases o <;> rfl

@[simp] theorem updSqft_City (o : Option String) (p : Property) : (updSqft o p).City = p.City := by cases o <;> rfl

@[simp] theorem updSqft_State (o : Option String) (p : Property) : (updSqft o p).State = p.State := by cases o <;> rfl

@[simp] theorem updSqft_ZipCode (o : Option String) (p : Property) : (updSqft o p).ZipCode = p.ZipCode := by cases o <;> rfl

@[simp] theorem updSqft_Status (o : Option String) (p : Property) : (updSqft o p).Status = p.Status := by cases o <;> rfl

@[simp] theorem updSqft_PricePerSqFt (o : Option String) (p : Property) : (updSqft o p).PricePerSqFt = p.PricePerSqFt := by cases o <;> rfl

@[simp] theorem updSqft_Price (o : Option String) (p : Property) : (updSqft o p).Price = p.Price := by cases o <;> rfl

@[simp] theorem updBed_Address (o : Option String) (p : Property) : (updBed o p).Address = p.Address := by cases o <;> rfl

@[simp] theorem updBed_City (o : Option String) (p : Property) : (updBed o p).City = p.City := by cases o <;> rfl

@[simp] theorem updBed_State (o : Option String) (p : Property) : (updBed o p).State = p.State := by cases o <;> rfl

@[simp] theorem updBed_ZipCode (o : Option String) (p : Property) : (updBed o p).ZipCode = p.ZipCode := by cases o <;> rfl

@[simp] theorem updBed_Status (o : Option String) (p : Property) : (updBed o p).Status = p.Status := by cases o <;> rfl

@[simp] theorem updBed_PricePerSqFt (o : Option String) (p : Property) : (updBed o p).PricePerSqFt = p.PricePerSqFt := by cases o <;> rfl

@[simp] theorem updBed_Price (o : Option String) (p : Property) : (updBed o p).Price = p.Price := by cases o <;> rfl

@[simp] theorem updBed_SquareFeet (o : Option String) (p : Property) : (updBed o p).SquareFeet = p.SquareFeet := by cases o <;> rfl

@[simp] theorem updBath_Address (o : Option String) (p : Property) : (updBath o p).Address = p.Address := by cases o <;> rfl

@[simp] theorem updBath_City (o : Option String) (p : Property) : (updBath o p).City = p.City := by cases o <;> rfl

@[simp] theorem updBath_State (o : Option String) (p : Property) : (updBath o p).State = p.State := by cases o <;> rfl

@[simp] theorem updBath_ZipCode (o : Option String) (p : Property) : (updBath o p).ZipCode = p.ZipCode := by cases o <;> rfl

@[simp] theorem updBath_Status (o : Option String) (p : Property) : (updBath o p).Status = p.Status := by cases o <;> rfl

@[simp] theorem updBath_PricePerSqFt (o : Option String) (p : Property) : (updBath o p).PricePerSqFt = p.PricePerSqFt := by cases o <;> rfl

@[simp] theorem updBath_Price (o : Option String) (p : Property) : (updBath o p).Price = p.Price := by cases o <;> rfl

@[simp] theorem updBath_SquareFeet (o : Option String) (p : Property) : (updBath o p).SquareFeet = p.SquareFeet := by cases o <;> rfl

@[simp] theorem updSold_Address (o : Option String) (p : Property) : (updSold o p).Address = p.Address := by cases o <;> rfl

@[simp] theorem updSold_City (o : Option String) (p : Property) : (updSold o p).City = p.City := by cases o <;> rfl

@[simp] theorem updSold_State (o : Option String) (p : Property) : (updSold o p).State = p.State := by cases o <;> rfl

@[simp] theorem updSold_ZipCode (o : Option String) (p : Property) : (updSold o p).ZipCode = p.ZipCode := by cases o <;> rfl

@[simp] theorem updSold_Status (o : Option String) (p : Property) : (updSold o p).Status = p.Status := by cases o <;> rfl

@[simp] theorem updSold_PricePerSqFt (o : Option String) (p : Property) : (updSold o p).PricePerSqFt = p.PricePerSqFt := by cases o <;> rfl

@[simp] theorem updSold_Price (o : Option String) (p : Property) : (updSold o p).Price = p.Price := by cases o <;> rfl

@[simp] theorem updSold_SquareFeet (o : Option String) (p : Property) : (updSold o p).SquareFeet = p.SquareFeet := by cases o <;> rfl

@[simp] theorem updDays_Address (o : Option String) (p : Property) : (updDays o p).Address = p.Address := by cases o <;> rfl

@[simp] theorem updDays_City (o : Option String) (p : Property) : (updDays o p).City = p.City := by cases o <;> rfl

@[simp] theorem updDays_State (o : Option String) (p : Property) : (updDays o p).State = p.State := by cases o <;> rfl

@[simp] theorem updDays_ZipCode (o : Option String) (p : Property) : (updDays o p).ZipCode = p.ZipCode := by cases o <;> rfl

@[simp] theorem updDays_Status (o : Option String) (p : Property) : (updDays o p).Status = p.Status := by cases o <;> rfl

@[simp] theorem updDays_PricePerSqFt (o : Option String) (p : Property) : (updDays o p).PricePerSqFt = p.PricePerSqFt := by cases o <;> rfl

@[simp] theorem updDays_Price (o : Option String) (p : Property) : (updDays o p).Price = p.Price := by cases o <;> rfl

@[simp] theorem updDays_SquareFeet (o : Option String) (p : Property) : (updDays o p).SquareFeet = p.SquareFeet := by cases o <;> rfl

@[simp] theorem updYear_Address (o : Option String) (p : Property) : (updYear o p).Address = p.Address := by cases o <;> rfl

@[simp] theorem updYear_City (o : Option String) (p : Property) : (updYear o p).City = p.City := by cases o <;> rfl

@[simp] theorem updYear_State (o : Option String) (p : Property) : (updYear o p).State = p.State := by cases o <;> rfl

@[simp] theorem updYear_ZipCode (o : Option String) (p : Property) : (updYear o p).ZipCode = p.ZipCode := by cases o <;> rfl

@[simp] theorem updYear_Status (o : Option String) (p : Property) : (updYear o p).Status = p.Status := by cases o <;> rfl

@[simp] theorem updYear_PricePerSqFt (o : Option String) (p : Property) : (updYear o p).PricePerSqFt = p.PricePerSqFt := by cases o <;> rfl

@[simp] theorem updYear_Price (o : Option String) (p : Property) : (updYear o p).Price = p.Price := by cases o <;> rfl

@[simp] theorem updYear_SquareFeet (o : Option String) (p : Property) : (updYear o p).SquareFeet = p.SquareFeet := by cases o <;> rfl

@[simp] theorem updLot_PricePerSqFt (o : Option String) (p : Property) : (updLot o p).PricePerSqFt = p.PricePerSqFt := by cases o <;> rfl

@[simp] theorem updLot_Price (o : Option String) (p : Property) : (updLot o p).Price = p.Price := by cases o <;> rfl

@[simp] theorem updLot_SquareFeet (o : Option String) (p : Property) : (updLot o p).SquareFeet = p.SquareFeet := by cases o <;> rfl

/-- The window field extractions leave the address untouched. -/
@[simp] theorem applyChunkFields_Address (rx : PageRegexes) (c : String) (p : Property) :
    (applyChunkFields rx c p).Address = p.Address := by
  simp [applyChunkFields]

/-- The window field extractions leave the city untouched. -/
@[simp] theorem applyChunkFields_City (rx : PageRegexes) (c : String) (p : Property) :
    (applyChunkFields rx c p).City = p.City := by
  simp [applyChunkFields]

/-- The window field extractions leave the state untouched. -/
@[simp] theorem applyChunkFields_State (rx : PageRegexes) (c : String) (p : Property) :
    (applyChunkFields rx c p).State = p.State := by
  simp [applyChunkFields]

/-- The window field extractions leave the postal code untouched. -/
@[simp] theorem applyChunkFields_ZipCode (rx : PageRegexes) (c : String) (p : Property) :
    (applyChunkFields rx c p).ZipCode = p.ZipCode := by
  simp [applyChunkFields]

/-- The window field extractions leave the status untouched. -/
@[simp] theorem applyChunkFields_Status (rx : PageRegexes) (c : String) (p : Property) :
    (applyChunkFields rx c p).Status = p.Status := by
  simp [applyChunkFields]

/-- The window field extractions leave the price-per-area field untouched. -/
@[simp] theorem applyChunkFields_PricePerSqFt (rx : PageRegexes) (c : String) (p : Property) :
    (applyChunkFields rx c p).PricePerSqFt = p.PricePerSqFt := by
  simp [applyChunkFields]

/-! Characterization of the per-anchor loop stages. -/

@[simp] theorem finishCandidate_Address (p : Property) : (finishCandidate p).Address = p.Address := by
  simp only [finishCandidate]; split <;> split <;> simp

@[simp] theorem finishCandidate_City (p : Property) : (finishCandidate p).City = p.City := by
  simp only [finishCandidate]; split <;> split <;> simp

@[simp] theorem finishCandidate_State (p : Property) : (finishCandidate p).State = p.State := by
  simp only [finishCandidate]; split <;> split <;> simp

@[simp] theorem finishCandidate_ZipCode (p : Property) : (finishCandidate p).ZipCode = p.ZipCode := by
  simp only [finishCandidate]; split <;> split <;> simp

@[simp] theorem finishCandidate_Status (p : Property) : (finishCandidate p).Status = p.Status := by
  simp only [finishCandidate]; split <;> split <;> simp

@[simp] theorem finishCandidate_Price (p : Property) : (finishCandidate p).Price = p.Price := by
  simp only [finishCandidate]; split <;> split <;> simp

@[simp] theorem finishCandidate_SquareFeet (p : Property) :
    (finishCandidate p).SquareFeet = p.SquareFeet := by
  simp only [finishCandidate]; split <;> split <;> simp

/-- Price-per-area is computed by `finishCandidate` exactly when price and area
are both positive; otherwise the field keeps its previous value. -/
theorem finishCandidate_PricePerSqFt (p : Property) :
    (finishCandidate p).PricePerSqFt =
      if 0 < p.Price ∧ 0 < p.SquareFeet then p.Price / p.SquareFeet
      else p.PricePerSqFt := by
  simp only [finishCandidate]
  split <;> split <;> simp_all

/-- The address-parsing stage either leaves the record unchanged or assigns the
hardcoded city, state and postal code. -/
theorem addrFields_cases (a : String) (p : Property) :
    addrFields a p = p ∨
      ((addrFields a p).City = "Honolulu" ∧ (addrFields a p).State = "HI" ∧
        (addrFields a p).ZipCode = "96822") := by
  unfold addrFields
  split
  · right; simp
  · left; rfl

@[simp] theorem addrFields_Status (a : String) (p : Property) :
    (addrFields a p).Status = p.Status := by
  unfold addrFields; split <;> simp

@[simp] theorem addrFields_Price (a : String) (p : Property) :
    (addrFields a p).Price = p.Price := by
  unfold addrFields; split <;> simp

@[simp] theorem addrFields_SquareFeet (a : String) (p : Property) :
    (addrFields a p).SquareFeet = p.SquareFeet := by
  unfold addrFields; split <;> simp

@[simp] theorem addrFields_PricePerSqFt (a : String) (p : Property) :
    (addrFields a p).PricePerSqFt = p.PricePerSqFt := by
  unfold addrFields; split <;> simp

/-- Admission only lets a record through unchanged, and only with a non-empty
address and a positive price. -/
theorem admissible_spec (p q : Property) (h : admissible p = some q) :
    q = p ∧ p.Address ≠ "" ∧ 0 < p.Price := by
  unfold admissible at h
  split at h
  · exact ⟨(Option.some.injEq _ _ ▸ h).symm, by assumption⟩
  · exact absurd h (by simp)

/-- Every record the per-anchor loop admits has a non-empty address, a positive
price, the hardcoded status/city/state/postal constants, and a price-per-area
that is the integer quotient when price and area are positive and zero
otherwise. -/
theorem extractAt_some_spec (rx : PageRegexes) (text addr : String) (q : Property)
    (h : extractAt rx text addr = some q) :
    q.Address ≠ "" ∧ 0 < q.Price ∧ q.Status = "sold" ∧ q.City = "Honolulu" ∧
      q.State = "HI" ∧ q.ZipCode = "96822" ∧
      q.PricePerSqFt =
        (if 0 < q.Price ∧ 0 < q.SquareFeet then q.Price / q.SquareFeet else 0) := by
  rw [extractAt] at h
  split at h
  · exact absurd h (by simp)
  · split at h
    · exact absurd h (by simp)
    · rename_i idx _
      obtain ⟨hq, hAddr, hPrice⟩ := admissible_spec _ _ h
      subst hq
      have hcsz : (addrFields addr ({ Status := "sold" } : Property)).City = "Honolulu" ∧
          (addrFields addr ({ Status := "sold" } : Property)).State = "HI" ∧
          (addrFields addr ({ Status := "sold" } : Property)).ZipCode = "96822" := by
        rcases addrFields_cases addr ({ Status := "sold" } : Property) with hc | hc
        · exfalso
          apply hAddr
          rw [finishCandidate_Address, applyChunkFields_Address, hc]
        · exact hc
      refine ⟨hAddr, hPrice, ?_, ?_, ?_, ?_, ?_⟩
      · rw [finishCandidate_Status, applyChunkFields_Status, addrFields_Status]
      · rw [finishCandidate_City, applyChunkFields_City]
        exact hcsz.1
      · rw [finishCandidate_State, applyChunkFields_State]
        exact hcsz.2.1
      · rw [finishCandidate_ZipCode, applyChunkFields_ZipCode]
        exact hcsz.2.2
      · rw [finishCandidate_PricePerSqFt, finishCandidate_Price, finishCandidate_SquareFeet,
          applyChunkFields_PricePerSqFt, addrFields_PricePerSqFt]

/-- Every record of a successful `scrapePage` outcome satisfies the per-anchor
admission invariants. -/
theorem scrapePageGo_ok_mem (rx : PageRegexes) (fr : FetchResult) (props : List Property)
    (p : Property) (hok : scrapePageGo rx fr = .ok props) (hp : p ∈ props) :
    p.Address ≠ "" ∧ 0 < p.Price ∧ p.Status = "sold" ∧ p.City = "Honolulu" ∧
      p.State = "HI" ∧ p.ZipCode = "96822" ∧
      p.PricePerSqFt =
        (if 0 < p.Price ∧ 0 < p.SquareFeet then p.Price / p.SquareFeet else 0) := by
  rcases fr with e | ⟨code, status, doc⟩
  · simp [scrapePageGo] at hok
  · rcases doc with e | d
    · simp only [scrapePageGo] at hok
      split at hok
      · exact absurd hok (by simp)
      · exact absurd hok (by simp)
    · simp only [scrapePageGo] at hok
      split at hok
      · exact absurd hok (by simp)
      · simp only [Except.ok.injEq] at hok
        subst hok
        obtain ⟨a, _, ha⟩ := List.mem_filterMap.mp hp
        exact extractAt_some_spec rx d.text a p ha

/-! Lemmas about the dedup map and the page loop. -/

/-- Lookup after insertion: the inserted key maps to the new value, all other
keys are unaffected. -/
theorem mapLookup_mapInsert (m : List (String × Property)) (k x : String) (v : Property) :
    mapLookup (mapInsert m k v) x = if k = x then some v else mapLookup m x := by
  induction m with
  | nil => simp [mapInsert, mapLookup, eq_comm]
  | cons kv t ih =>
    obtain ⟨k0, v0⟩ := kv
    by_cases hk : k0 = k
    · subst hk
      simp only [mapInsert, if_pos rfl, mapLookup]
      by_cases hx : k0 = x
      · subst hx; simp
      · simp [hx]
    · simp only [mapInsert, if_neg hk, mapLookup]
      by_cases hx : k0 = x
      · subst hx
        have : ¬k = k0 := fun h => hk h.symm
        simp [this]
      · simp [hx, ih]

/-- Values in the map after an insertion come from the map before or are the
inserted pair. -/
theorem mem_mapInsert (m : List (String × Property)) (k : String) (v : Property)
    (kv : String × Property) (h : kv ∈ mapInsert m k v) : kv ∈ m ∨ kv = (k, v) := by
  induction m with
  | nil => simp [mapInsert] at h; right; exact h
  | cons kv0 t ih =>
    obtain ⟨k0, v0⟩ := kv0
    by_cases hk : k0 = k
    · subst hk
      simp only [mapInsert, if_pos rfl] at h
      rcases List.mem_cons.mp h with h | h
      · right; rw [h]
      · left; exact List.mem_cons_of_mem _ h
    · simp only [mapInsert, if_neg hk] at h
      rcases List.mem_cons.mp h with h | h
      · left; rw [h]; exact List.mem_cons_self _ _
      · rcases ih h with h | h
        · left; exact List.mem_cons_of_mem _ h
        · right; exact h

/-- Values in the map after inserting a record list come from the map before or
from the list. -/
theorem mem_insertAll (l : List Property) (m : List (String × Property))
    (kv : String × Property) (h : kv ∈ insertAll m l) : kv ∈ m ∨ kv.2 ∈ l := by
  induction l generalizing m with
  | nil => left; exact h
  | cons p t ih =>
    simp only [insertAll, List.foldl_cons] at h
    have h2 := ih _ (by exact h)
    rcases h2 with h2 | h2
    · by_cases hid : p.ID ≠ ""
      · rw [if_pos hid] at h2
        rcases mem_mapInsert _ _ _ _ h2 with h3 | h3
        · left; exact h3
        · right; rw [h3]; exact List.mem_cons_self _ _
      · rw [if_neg hid] at h2
        left; exact h2
    · right; exact List.mem_cons_of_mem _ h2

/-- The record surviving for an identifier: the last record of the list carrying
it (`none` when no record does). -/
def lastWith (id : String) : List Property → Option Property
  | [] => none
  | p :: t =>
    match lastWith id t with
    | some v => some v
    | none => if p.ID = id then some p else none

/-- Last-write-wins: looking up `x` after inserting a list of records with
non-empty identifiers yields the last record carrying `x`, or falls back to the
previous map. -/
theorem mapLookup_insertAll (l : List Property) (m : List (String × Property)) (x : String)
    (hids : ∀ p ∈ l, p.ID ≠ "") :
    mapLookup (insertAll m l) x =
      match lastWith x l with
      | some v => some v
      | none => mapLookup m x := by
  induction l generalizing m with
  | nil => simp [insertAll, lastWith]
  | cons p t ih =>
    have hid : p.ID ≠ "" := hids p (List.mem_cons_self _ _)
    have hids' : ∀ q ∈ t, q.ID ≠ "" := fun q hq => hids q (List.mem_cons_of_mem _ hq)
    simp only [insertAll, List.foldl_cons, if_pos hid]
    rw [show (List.foldl (fun m p => if p.ID ≠ "" then mapInsert m p.ID p else m)
        (mapInsert m p.ID p) t) = insertAll (mapInsert m p.ID p) t from rfl]
    rw [ih _ hids']
    simp only [lastWith]
    cases lastWith x t with
    | some v => rfl
    | none =>
      rw [mapLookup_mapInsert]
      by_cases hx : p.ID = x
      · simp [hx]
      · simp [hx]

/-- Keys of the association-list map. -/
def mapKeys (m : List (String × Property)) : List String := m.map Prod.fst

/-- Inserting adds the key only when it is new. -/
theorem mapKeys_mapInsert (m : List (String × Property)) (k : String) (v : Property) :
    mapKeys (mapInsert m k v) = if k ∈ mapKeys m then mapKeys m else mapKeys m ++ [k] := by
  induction m with
  | nil => simp [mapInsert, mapKeys]
  | cons kv t ih =>
    obtain ⟨k0, v0⟩ := kv
    by_cases hk : k0 = k
    · subst hk
      simp [mapInsert, mapKeys]
    · have hkk : ¬k = k0 := fun h => hk h.symm
      simp only [mapKeys, List.map_cons] at ih ⊢
      rw [show mapInsert ((k0, v0) :: t) k v = (k0, v0) :: mapInsert t k v from by
        simp [mapInsert, hk]]
      rw [List.map_cons, ih]
      by_cases hmem : k ∈ List.map Prod.fst t
      · rw [if_pos hmem, if_pos (by simp [List.mem_cons, hmem])]
      · rw [if_neg hmem, if_neg (by simp [List.mem_cons, hmem, hkk])]
        simp

/-- Insertion preserves distinctness of the keys. -/
theorem mapKeys_nodup_mapInsert (m : List (String × Property)) (k : String) (v : Property)
    (h : (mapKeys m).Nodup) : (mapKeys (mapInsert m k v)).Nodup := by
  rw [mapKeys_mapInsert]
  split
  · exact h
  · rename_i hnot
    simp [List.nodup_append, h, hnot]

/-- Key membership after inserting a record list with non-empty identifiers. -/
theorem mem_mapKeys_insertAll (l : List Property) (m : List (String × Property)) (x : String)
    (hids : ∀ p ∈ l, p.ID ≠ "") :
    (x ∈ mapKeys (insertAll m l)) ↔ (x ∈ mapKeys m ∨ x ∈ l.map Property.ID) := by
  induction l generalizing m with
  | nil => simp [insertAll]
  | cons p t ih =>
    have hid : p.ID ≠ "" := hids p (List.mem_cons_self _ _)
    have hids' : ∀ q ∈ t, q.ID ≠ "" := fun q hq => hids q (List.mem_cons_of_mem _ hq)
    simp only [insertAll, List.foldl_cons, if_pos hid]
    rw [show (List.foldl (fun m p => if p.ID ≠ "" then mapInsert m p.ID p else m)
        (mapInsert m p.ID p) t) = insertAll (mapInsert m p.ID p) t from rfl]
    rw [ih _ hids', mapKeys_mapInsert]
    by_cases hmem : p.ID ∈ mapKeys m
    · rw [if_pos hmem]
      have hx : x = p.ID → x ∈ mapKeys m := fun h => h ▸ hmem
      simp only [List.map_cons, List.mem_cons]
      tauto
    · rw [if_neg hmem]
      simp only [List.mem_append, List.map_cons, List.mem_cons, List.mem_singleton]
      tauto

/-- Inserting a record list preserves distinctness of the keys. -/
theorem mapKeys_nodup_insertAll (l : List Property) (m : List (String × Property))
    (h : (mapKeys m).Nodup) : (mapKeys (insertAll m l)).Nodup := by
  induction l generalizing m with
  | nil => exact h
  | cons p t ih =>
    simp only [insertAll, List.foldl_cons]
    rw [show (List.foldl (fun m p => if p.ID ≠ "" then mapInsert m p.ID p else m)
        (if p.ID ≠ "" then mapInsert m p.ID p else m) t) =
        insertAll (if p.ID ≠ "" then mapInsert m p.ID p else m) t from rfl]
    apply ih
    split
    · exact mapKeys_nodup_mapInsert _ _ _ h
    · exact h

/-- Size of the dedup map built from records with non-empty identifiers: the
number of distinct identifiers in the list. -/
theorem insertAll_length (l : List Property) (hids : ∀ p ∈ l, p.ID ≠ "") :
    (insertAll [] l).length = (l.map Property.ID).dedup.length := by
  have hnodup : (mapKeys (insertAll [] l)).Nodup :=
    mapKeys_nodup_insertAll l [] (by simp [mapKeys])
  have hmem : ∀ x, x ∈ mapKeys (insertAll [] l) ↔ x ∈ l.map Property.ID := by
    intro x
    rw [mem_mapKeys_insertAll l [] x hids]
    simp [mapKeys]
  have h1 : (insertAll [] l).length = (mapKeys (insertAll [] l)).length := by
    simp [mapKeys]
  have h2 : (mapKeys (insertAll [] l)).toFinset = (l.map Property.ID).toFinset := by
    apply Finset.ext
    intro x
    simp only [List.mem_toFinset]
    exact hmem x
  rw [h1, ← List.toFinset_card_of_nodup hnodup, h2, List.card_toFinset]

/-- Unfolding of one successful crawl: the outcome map is the dedup fold of the
records the pages yielded, in yield order, and every yielded record came from a
successful fetch. -/
theorem crawlLoop_ok_spec (fetch : String → Except String (List Property)) (urlOf : Nat → String) :
    ∀ (remaining page : Nat) (pages : List Nat) (yield : List Property)
      (m0 m : List (String × Property)),
      (crawlLoop fetch urlOf remaining page pages yield m0).outcome = .ok m →
      ∃ ys, (crawlLoop fetch urlOf remaining page pages yield m0).yielded = yield ++ ys ∧
        m = insertAll m0 ys ∧ ∀ p ∈ ys, ∃ u l, fetch u = .ok l ∧ p ∈ l := by
  intro remaining
  induction remaining with
  | zero =>
    intro page pages yield m0 m h
    simp only [crawlLoop] at h
    simp only [Except.ok.injEq] at h
    exact ⟨[], by simp [crawlLoop], by simp [insertAll, h], by simp⟩
  | succ r ih =>
    intro page pages yield m0 m h
    rw [crawlLoop] at h
    cases hf : fetch (urlOf page) with
    | error e =>
      rw [hf] at h
      exact absurd h (by simp)
    | ok props =>
      rw [hf] at h
      simp only at h
      by_cases hl : props.length < 20
      · rw [if_pos hl] at h
        simp only [Except.ok.injEq] at h
        refine ⟨props, ?_, h.symm, ?_⟩
        · rw [crawlLoop, hf]
          simp only
          rw [if_pos hl]
        · intro p hp; exact ⟨urlOf page, props, hf, hp⟩
      · rw [if_neg hl] at h
        obtain ⟨ys, hy, hm, hsrc⟩ := ih (page + 1) (pages ++ [page]) (yield ++ props)
          (insertAll m0 props) m h
        refine ⟨props ++ ys, ?_, ?_, ?_⟩
        · rw [crawlLoop, hf]
          simp only
          rw [if_neg hl, hy, List.append_assoc]
        · rw [hm]
          simp [insertAll, List.foldl_append]
        · intro p hp
          rcases List.mem_append.mp hp with h1 | h1
          · exact ⟨urlOf page, props, hf, h1⟩
          · exact hsrc p h1

/-! Preservation lemmas for the Redfin success path: no stage after the basic
field extraction touches price, area or price-per-area, and nothing before the
final guard touches price-per-area. -/

/-- A fold whose step preserves a projection preserves it globally. -/
theorem foldl_proj {α β : Type} (proj : Property → β) (step : Property → α → Property)
    (h : ∀ p a, proj (step p a) = proj p) :
    ∀ (l : List α) (p : Property), proj (l.foldl step p) = proj p := by
  intro l
  induction l with
  | nil => intro p; rfl
  | cons a t ih => intro p; rw [List.foldl_cons, ih, h]

/-- Price, area and price-per-area are untouched by one description step. -/
theorem descStep_psp (p : Property) (t : String) :
    (descStep p t).Price = p.Price ∧ (descStep p t).SquareFeet = p.SquareFeet ∧
      (descStep p t).PricePerSqFt = p.PricePerSqFt := by
  unfold descStep; split <;> simp

/-- Price, area and price-per-area are untouched by one feature step. -/
theorem featureStep_psp (p : Property) (f : String) :
    (featureStep p f).Price = p.Price ∧ (featureStep p f).SquareFeet = p.SquareFeet ∧
      (featureStep p f).PricePerSqFt = p.PricePerSqFt := by
  simp only [featureStep]
  split_ifs <;> simp

/-- Price, area and price-per-area are untouched by one agent step. -/
theorem agentStep_psp (p : Property) (t : String) :
    (agentStep p t).Price = p.Price ∧ (agentStep p t).SquareFeet = p.SquareFeet ∧
      (agentStep p t).PricePerSqFt = p.PricePerSqFt := by
  simp only [agentStep]
  split_ifs <;> simp

/-- The basic field extraction does not touch price-per-area. -/
theorem redfinBasicFields_ppsf (rx : RedfinRegexes) (text : String) (p : Property) :
    (redfinBasicFields rx text p).PricePerSqFt = p.PricePerSqFt := by
  simp [redfinBasicFields]

/-- The school extraction does not touch price, area or price-per-area. -/
theorem redfinSchoolFields_psp (rx : RedfinRegexes) (text : String) (p : Property) :
    (redfinSchoolFields rx text p).Price = p.Price ∧
      (redfinSchoolFields rx text p).SquareFeet = p.SquareFeet ∧
      (redfinSchoolFields rx text p).PricePerSqFt = p.PricePerSqFt := by
  unfold redfinSchoolFields
  cases rx.findDistrict text <;> cases rx.findElementary text <;> cases rx.findMiddle text <;>
    cases rx.findHigh text <;> simp

/-- The condition/tax/HOA/parking extraction does not touch price, area or
price-per-area. -/
theorem redfinConditionFields_psp (rx : RedfinRegexes) (text : String) (p : Property) :
    (redfinConditionFields rx text p).Price = p.Price ∧
      (redfinConditionFields rx text p).SquareFeet = p.SquareFeet ∧
      (redfinConditionFields rx text p).PricePerSqFt = p.PricePerSqFt := by
  unfold redfinConditionFields
  rcases rx.findCondition text with _ | c <;>
    rcases rx.findTax text with _ | tx <;>
      rcases rx.findHOA text with _ | ho <;>
        rcases rx.findParking text with _ | ⟨g1, g2⟩ <;> dsimp only <;>
          first
          | (split_ifs <;> simp)
          | simp

/-- The description extraction does not touch price, area or price-per-area. -/
theorem redfinDescription_psp (rx : RedfinRegexes) (d : PageDoc) (p : Property) :
    (redfinDescription rx d p).Price = p.Price ∧
      (redfinDescription rx d p).SquareFeet = p.SquareFeet ∧
      (redfinDescription rx d p).PricePerSqFt = p.PricePerSqFt := by
  unfold redfinDescription
  have h1 := foldl_proj Property.Price descStep (fun p a => (descStep_psp p a).1)
    d.remarkTexts p
  have h2 := foldl_proj Property.SquareFeet descStep (fun p a => (descStep_psp p a).2.1)
    d.remarkTexts p
  have h3 := foldl_proj Property.PricePerSqFt descStep (fun p a => (descStep_psp p a).2.2)
    d.remarkTexts p
  dsimp only
  by_cases hD : (List.foldl descStep p d.remarkTexts).Description = ""
  · rw [if_pos hD]
    cases hd : rx.findDesc d.text
    · exact ⟨h1, h2, h3⟩
    · simp [h1, h2, h3]
  · rw [if_neg hD]
    exact ⟨h1, h2, h3⟩

/-- The feature stage does not touch price, area or price-per-area. -/
theorem redfinWithFeatures_psp (rx : RedfinRegexes) (d : PageDoc) (p : Property) :
    (redfinWithFeatures rx d p).Price = p.Price ∧
      (redfinWithFeatures rx d p).SquareFeet = p.SquareFeet ∧
      (redfinWithFeatures rx d p).PricePerSqFt = p.PricePerSqFt := by
  unfold redfinWithFeatures redfinFeatureFields
  have h1 := foldl_proj Property.Price featureStep (fun p a => (featureStep_psp p a).1)
    (redfinFeatures rx d) p
  have h2 := foldl_proj Property.SquareFeet featureStep (fun p a => (featureStep_psp p a).2.1)
    (redfinFeatures rx d) p
  have h3 := foldl_proj Property.PricePerSqFt featureStep (fun p a => (featureStep_psp p a).2.2)
    (redfinFeatures rx d) p
  simp [h1, h2, h3]

/-- The neighborhood stage does not touch price, area or price-per-area. -/
theorem redfinNbhd_psp (p : Property) :
    (redfinNbhd p).Price = p.Price ∧ (redfinNbhd p).SquareFeet = p.SquareFeet ∧
      (redfinNbhd p).PricePerSqFt = p.PricePerSqFt := by
  unfold redfinNbhd; split <;> simp

/-- The agent stage does not touch price, area or price-per-area. -/
theorem redfinAgent_psp (d : PageDoc) (p : Property) :
    (redfinAgent d p).Price = p.Price ∧ (redfinAgent d p).SquareFeet = p.SquareFeet ∧
      (redfinAgent d p).PricePerSqFt = p.PricePerSqFt := by
  unfold redfinAgent
  exact ⟨foldl_proj Property.Price agentStep (fun p a => (agentStep_psp p a).1) _ p,
    foldl_proj Property.SquareFeet agentStep (fun p a => (agentStep_psp p a).2.1) _ p,
    foldl_proj Property.PricePerSqFt agentStep (fun p a => (agentStep_psp p a).2.2) _ p⟩

/-- The type stage does not touch price, area or price-per-area. -/
theorem redfinType_psp (text : String) (p : Property) :
    (redfinType text p).Price = p.Price ∧ (redfinType text p).SquareFeet = p.SquareFeet ∧
      (redfinType text p).PricePerSqFt = p.PricePerSqFt := by
  simp only [redfinType]
  split_ifs <;> simp

/-- Characterization of the success-path tail: price and area pass through, and
price-per-area is the integer quotient when both are positive. -/
theorem redfinFinish_spec (p : Property) :
    (redfinFinish p).Price = p.Price ∧ (redfinFinish p).SquareFeet = p.SquareFeet ∧
      (redfinFinish p).PricePerSqFt =
        (if 0 < p.Price ∧ 0 < p.SquareFeet then p.Price / p.SquareFeet
         else p.PricePerSqFt) := by
  unfold redfinFinish
  dsimp only
  by_cases h : 0 < p.Price ∧ 0 < p.SquareFeet
  · rw [if_pos h]
    exact ⟨rfl, rfl, by rw [if_pos h]⟩
  · rw [if_neg h]
    exact ⟨rfl, rfl, by rw [if_neg h]⟩

/-- Price-per-area invariant of the whole success path: the final value is the
integer quotient of the final price and area when both are positive, and the
incoming price-per-area otherwise. -/
theorem redfinSuccess_ppsf (rx : RedfinRegexes) (d : PageDoc) (p : Property) :
    (redfinSuccess rx d p).PricePerSqFt =
      (if 0 < (redfinSuccess rx d p).Price ∧ 0 < (redfinSuccess rx d p).SquareFeet
       then (redfinSuccess rx d p).Price / (redfinSuccess rx d p).SquareFeet
       else p.PricePerSqFt) := by
  unfold redfinSuccess
  generalize hW : redfinType d.text (redfinAgent d (redfinNbhd (redfinWithFeatures rx d
    (redfinDescription rx d (redfinConditionFields rx d.text (redfinSchoolFields rx d.text
      (redfinBasicFields rx d.text p))))))) = W
  have hppsf : W.PricePerSqFt = p.PricePerSqFt := by
    rw [← hW]
    rw [(redfinType_psp _ _).2.2, (redfinAgent_psp _ _).2.2, (redfinNbhd_psp _).2.2,
      (redfinWithFeatures_psp _ _ _).2.2, (redfinDescription_psp _ _ _).2.2,
      (redfinConditionFields_psp _ _ _).2.2, (redfinSchoolFields_psp _ _ _).2.2,
      redfinBasicFields_ppsf]
  rw [(redfinFinish_spec W).1, (redfinFinish_spec W).2.1, (redfinFinish_spec W).2.2, hppsf]

/-- The URL-parsing stage produces a record with zero price, area and
price-per-area. -/
theorem redfinFromURL_psp (url : String) :
    (redfinFromURL url).Price = 0 ∧ (redfinFromURL url).SquareFeet = 0 ∧
      (redfinFromURL url).PricePerSqFt = 0 := by
  unfold redfinFromURL
  dsimp only
  cases List.findIdx? (fun part => part.length = 2 && goToUpper part = part)
      (goSplit url '/') with
  | none => exact ⟨rfl, rfl, rfl⟩
  | some i =>
    dsimp only
    repeat' split
    all_goals simp

/-- The best-effort return does not touch price, area or price-per-area. -/
theorem redfinBestEffort_psp (p : Property) :
    (redfinBestEffort p).Price = p.Price ∧ (redfinBestEffort p).SquareFeet = p.SquareFeet ∧
      (redfinBestEffort p).PricePerSqFt = p.PricePerSqFt := by
  simp [redfinBestEffort]

/-! Lemmas about the statistics fallback steps and the concrete anchored
patterns. -/

@[simp] theorem fbMedian_days (o : Option String) (st : MarketStats) :
    (fbMedian o st).AverageDaysOnMarket = st.AverageDaysOnMarket := by cases o <;> rfl

@[simp] theorem fbMedian_yoy (o : Option String) (st : MarketStats) :
    (fbMedian o st).YearOverYearChange = st.YearOverYearChange := by cases o <;> rfl

@[simp] theorem fbAvgSqFt_median (o : Option String) (st : MarketStats) :
    (fbAvgSqFt o st).MedianSalePrice = st.MedianSalePrice := by cases o <;> rfl

@[simp] theorem fbAvgSqFt_days (o : Option String) (st : MarketStats) :
    (fbAvgSqFt o st).AverageDaysOnMarket = st.AverageDaysOnMarket := by cases o <;> rfl

@[simp] theorem fbAvgSqFt_yoy (o : Option String) (st : MarketStats) :
    (fbAvgSqFt o st).YearOverYearChange = st.YearOverYearChange := by cases o <;> rfl

@[simp] theorem fbDaysOnMkt_median (o : Option String) (st : MarketStats) :
    (fbDaysOnMkt o st).MedianSalePrice = st.MedianSalePrice := by cases o <;> rfl

@[simp] theorem fbDaysOnMkt_yoy (o : Option String) (st : MarketStats) :
    (fbDaysOnMkt o st).YearOverYearChange = st.YearOverYearChange := by cases o <;> rfl

@[simp] theorem fbDown_median (o : Option String) (st : MarketStats) :
    (fbDown o st).MedianSalePrice = st.MedianSalePrice := by cases o <;> rfl

@[simp] theorem fbDown_days (o : Option String) (st : MarketStats) :
    (fbDown o st).AverageDaysOnMarket = st.AverageDaysOnMarket := by cases o <;> rfl

@[simp] theorem fbHomes_median (o : Option String) (st : MarketStats) :
    (fbHomes o st).MedianSalePrice = st.MedianSalePrice := by cases o <;> rfl

@[simp] theorem fbHomes_days (o : Option String) (st : MarketStats) :
    (fbHomes o st).AverageDaysOnMarket = st.AverageDaysOnMarket := by cases o <;> rfl

@[simp] theorem fbHomes_yoy (o : Option String) (st : MarketStats) :
    (fbHomes o st).YearOverYearChange = st.YearOverYearChange := by cases o <;> rfl

@[simp] theorem fbSales_median (o : Option String) (st : MarketStats) :
    (fbSales o st).MedianSalePrice = st.MedianSalePrice := by cases o <;> rfl

@[simp] theorem fbSales_days (o : Option String) (st : MarketStats) :
    (fbSales o st).AverageDaysOnMarket = st.AverageDaysOnMarket := by cases o <;> rfl

@[simp] theorem fbSales_yoy (o : Option String) (st : MarketStats) :
    (fbSales o st).YearOverYearChange = st.YearOverYearChange := by cases o <;> rfl

/-- Value of the year-over-year step. -/
theorem fbDown_yoy_eq (o : Option String) (st : MarketStats) :
    (fbDown o st).YearOverYearChange =
      match o with
      | some m => -parsePercent (m ++ "%")
      | none => st.YearOverYearChange := by cases o <;> rfl

/-- Value of the days-on-market step. -/
theorem fbDaysOnMkt_days_eq (o : Option String) (st : MarketStats) :
    (fbDaysOnMkt o st).AverageDaysOnMarket =
      match o with
      | some m => parseInt m
      | none => st.AverageDaysOnMarket := by cases o <;> rfl

/-- Value of the median step. -/
theorem fbMedian_median_eq (o : Option String) (st : MarketStats) :
    (fbMedian o st).MedianSalePrice =
      match o with
      | some m => parsePrice m
      | none => st.MedianSalePrice := by cases o <;> rfl

/-- The fallback's year-over-year metric only depends on the `down ([0-9]+)%`
pattern: on a match it is the negated parsed capture, otherwise untouched. -/
theorem statsFallback_yoy (text : String) (st : MarketStats) :
    (statsFallback text st).YearOverYearChange =
      match reFind "down " Char.isDigit "%" text with
      | some m => -parsePercent (m ++ "%")
      | none => st.YearOverYearChange := by
  unfold statsFallback
  rw [fbSales_yoy, fbHomes_yoy, fbDown_yoy_eq]
  cases reFind "down " Char.isDigit "%" text
  · dsimp only
    rw [fbDaysOnMkt_yoy, fbAvgSqFt_yoy, fbMedian_yoy]
  · rfl

/-- The fallback's days-on-market metric only depends on its own pattern. -/
theorem statsFallback_days (text : String) (st : MarketStats) :
    (statsFallback text st).AverageDaysOnMarket =
      match reFind "" Char.isDigit " days on the market" text with
      | some m => parseInt m
      | none => st.AverageDaysOnMarket := by
  unfold statsFallback
  rw [fbSales_days, fbHomes_days, fbDown_days, fbDaysOnMkt_days_eq]
  cases reFind "" Char.isDigit " days on the market" text
  · dsimp only
    rw [fbAvgSqFt_days, fbMedian_days]
  · rfl

/-- The fallback's median metric only depends on its own pattern. -/
theorem statsFallback_median (text : String) (st : MarketStats) :
    (statsFallback text st).MedianSalePrice =
      match reFind "Median Sale Price $" isDigitComma "" text with
      | some m => parsePrice m
      | none => st.MedianSalePrice := by
  unfold statsFallback
  rw [fbSales_median, fbHomes_median, fbDown_median, fbDaysOnMkt_median, fbAvgSqFt_median,
    fbMedian_median_eq]

/-- A successful `tryMatch` returns a non-empty run of class characters. -/
theorem tryMatch_spec (pre : List Char) (cls : Char → Bool) (suf : List Char)
    (s run : List Char) (h : tryMatch pre cls suf s = some run) :
    run ≠ [] ∧ ∀ c ∈ run, cls c := by
  unfold tryMatch at h
  dsimp only at h
  split at h
  · split at h
    · exact absurd h (by simp)
    · split at h
      · rename_i hrun _
        simp only [Option.some.injEq] at h
        subst h
        refine ⟨by simpa [List.isEmpty_iff] using hrun, ?_⟩
        intro c hc
        exact List.mem_takeWhile_imp hc
      · exact absurd h (by simp)
  · exact absurd h (by simp)

/-- A successful `reFindAux` returns a non-empty run of class characters. -/
theorem reFindAux_spec (pre : List Char) (cls : Char → Bool) (suf : List Char) :
    ∀ (s run : List Char), reFindAux pre cls suf s = some run →
      run ≠ [] ∧ ∀ c ∈ run, cls c := by
  intro s
  induction s with
  | nil =>
    intro run h
    rw [reFindAux] at h
    exact absurd h (by simp)
  | cons c t ih =>
    intro run h
    rw [reFindAux] at h
    cases htm : tryMatch pre cls suf (c :: t) with
    | some r =>
      rw [htm] at h
      simp only [Option.some.injEq] at h
      subst h
      exact tryMatch_spec _ _ _ _ _ htm
    | none =>
      rw [htm] at h
      exact ih run h

/-- A successful `reFind` over the digit class returns a non-empty string of
digits. -/
theorem reFind_digits (pre suf s m : String)
    (h : reFind pre Char.isDigit suf s = some m) :
    m.toList ≠ [] ∧ ∀ c ∈ m.toList, c.isDigit := by
  unfold reFind at h
  cases ha : reFindAux pre.toList Char.isDigit suf.toList s.toList with
  | none => rw [ha] at h; exact absurd h (by simp)
  | some run =>
    rw [ha] at h
    dsimp only [Option.map] at h
    injection h with h2
    subst h2
    exact reFindAux_spec _ _ _ _ _ ha

/-- Lemma: `takeWhile` runs through a block of satisfying characters. -/
theorem takeWhile_all_append (p : Char → Bool) (l1 l2 : List Char) (h : ∀ c ∈ l1, p c) :
    (l1 ++ l2).takeWhile p = l1 ++ l2.takeWhile p := by
  induction l1 with
  | nil => simp
  | cons c t ih =>
    have hc : p c := h c (List.mem_cons_self _ _)
    simp only [List.cons_append, List.takeWhile_cons, hc, if_true]
    rw [ih (fun x hx => h x (List.mem_cons_of_mem _ hx))]

/-- Lemma: `dropWhile` skips a block of satisfying characters. -/
theorem dropWhile_all_append (p : Char → Bool) (l1 l2 : List Char) (h : ∀ c ∈ l1, p c) :
    (l1 ++ l2).dropWhile p = l2.dropWhile p := by
  induction l1 with
  | nil => simp
  | cons c t ih =>
    have hc : p c := h c (List.mem_cons_self _ _)
    simp only [List.cons_append, List.dropWhile_cons, hc, if_true]
    exact ih (fun x hx => h x (List.mem_cons_of_mem _ hx))

/-- Lemma: `parsePercent` on a digit string with a percent sign appended yields exactly
the numeric value of the digits (the code path taken by the year-over-year
fallback, homes.go:234). -/
theorem parsePercent_digits (cs : List Char) (h1 : cs ≠ []) (h2 : ∀ c ∈ cs, c.isDigit) :
    parsePercent (String.mk cs ++ "%") = (natOfDigits cs : ℚ) := by
  cases cs with
  | nil => exact absurd rfl h1
  | cons c t =>
    have hc : c.isDigit := h2 c (List.mem_cons_self _ _)
    have ht : ∀ x ∈ t, x.isDigit := fun x hx => h2 x (List.mem_cons_of_mem _ hx)
    have hlist : (String.mk (c :: t) ++ ("%" : String)).toList = c :: (t ++ ['%']) := by
      show (String.mk (c :: t) ++ ("%" : String)).data = c :: (t ++ ['%'])
      rw [String.data_append]
      rfl
    have hscan : percentScan (c :: (t ++ ['%'])) = some (false, numTail c (t ++ ['%'])) := by
      rw [percentScan.eq_def]
      simp [hc]
    have hnum : numTail c (t ++ ['%']) = (c :: t, []) := by
      unfold numTail
      rw [takeWhile_all_append _ t ['%'] ht, dropWhile_all_append _ t ['%'] ht]
      have e1 : List.takeWhile Char.isDigit ['%'] = [] := by decide
      have e2 : List.dropWhile Char.isDigit ['%'] = ['%'] := by decide
      rw [e1, e2]
      simp
    unfold parsePercent
    rw [hlist, hscan, hnum]
    simp [ratOfParts, natOfDigits]

/-! Concrete instances used by the claim witnesses. -/

/-- An oracle deliverying one well-formed anchor with price and area captures. -/
def rxDemo : PageRegexes :=
  { findAddresses := fun _ => ["7 A St, Honolulu, HI 96822"]
    findPrice := fun _ => some "1,000,000"
    findSqft := fun _ => some "2000"
    findBed := fun _ => none
    findBath := fun _ => none
    findSold := fun _ => none
    findDays := fun _ => none
    findYear := fun _ => none }

/-- A 200 response whose text contains the demo anchor. -/
def frDemo : FetchResult :=
  .response 200 "200 OK" (.ok { text := "7 A St, Honolulu, HI 96822 sold recently" })

/-- The record the demo page yields. -/
def demoProp : Property :=
  { ID := "prop_7asthonolulu", Address := "7 A St", City := "Honolulu", State := "HI",
    ZipCode := "96822", Price := 1000000, SquareFeet := 2000, PricePerSqFt := 500,
    PropertyType := "house", Status := "sold" }

/-- A Redfin oracle with no pattern matching anything. -/
def rxRedfinNone : RedfinRegexes :=
  { findPrice := fun _ => none, findSqft := fun _ => none, findBed := fun _ => none
    findBath := fun _ => none, findYear := fun _ => none, findSold := fun _ => none
    findLot := fun _ => none, findDaysOnMarket := fun _ => none, findDistrict := fun _ => none
    findElementary := fun _ => none, findMiddle := fun _ => none, findHigh := fun _ => none
    findCondition := fun _ => none, findTax := fun _ => none, findHOA := fun _ => none
    findParking := fun _ => none, findDesc := fun _ => none, featureMatchers := [] }

/-- The second-site URL of the end-to-end scenario. -/
def redfinPoeluaURL : String :=
  "https://www.redfin.com/HI/Honolulu/2819-Poelua-St-96822/home/88513618"

/-- The record reconstructed from that URL alone, with its identifier. -/
def redfinPoeluaParsed : Property := redfinBestEffort (redfinFromURL redfinPoeluaURL)

/-- An environment whose every fetch is blocked with HTTP 403. -/
def env403 : String → FetchResult := fun _ => .response 403 "403 Forbidden" (.error "blocked")

/-- C1: for the second-site (redfin.com) listing URL
`.../HI/Honolulu/2819-Poelua-St-96822/home/88513618`, a fetch observing any
non-200 status (such as HTTP 403) still makes `scrapeRedfinProperty` return,
without error, the URL-reconstructed record: address "2819 Poelua St" (the
2-uppercase-letter segment is the state, the next segment the city, and the
segment after that splits on its last hyphen into the hyphens-to-spaces
title-cased address and the postal code), city "Honolulu", state "HI", postal
code "96822", and a non-empty identifier. -/
theorem claim1_redfin_nonsuccess_best_effort (rx : RedfinRegexes) (env : String → FetchResult)
    (code : Nat) (status : String) (docRes : Except String PageDoc)
    (hcode : code ≠ 200)
    (henv : env redfinPoeluaURL = .response code status docRes) :
    scrapeRedfinProperty rx env redfinPoeluaURL = .ok redfinPoeluaParsed ∧
      redfinPoeluaParsed.Address = "2819 Poelua St" ∧
      redfinPoeluaParsed.City = "Honolulu" ∧
      redfinPoeluaParsed.State = "HI" ∧
      redfinPoeluaParsed.ZipCode = "96822" ∧
      redfinPoeluaParsed.ID ≠ "" := by
  refine ⟨?_, by decide, by decide, by decide, by decide, by decide⟩
  unfold scrapeRedfinProperty
  rw [henv]
  dsimp only
  rw [if_pos hcode]
  rfl

/-- Witness for C1: the concrete 403 environment. -/
theorem claim1_witness :
    scrapeRedfinProperty rxRedfinNone env403 redfinPoeluaURL = .ok redfinPoeluaParsed ∧
      redfinPoeluaParsed.Address = "2819 Poelua St" ∧
      redfinPoeluaParsed.City = "Honolulu" ∧
      redfinPoeluaParsed.State = "HI" ∧
      redfinPoeluaParsed.ZipCode = "96822" ∧
      redfinPoeluaParsed.ID ≠ "" :=
  claim1_redfin_nonsuccess_best_effort rxRedfinNone env403 403 "403 Forbidden"
    (.error "blocked") (by decide) rfl

/-- C2 counterexample: the claim says the sentinel-based identifier "never
collides with an ID derived from non-empty cleaned input", but the input
address `"unknown"` has a non-empty cleaned form and yields exactly the
sentinel-based identifier `generatePropertyID "" ""`. -/
theorem claim2_counterexample :
    generatePropertyID "unknown" "" = generatePropertyID "" "" ∧
      (goToLower ("unknown" ++ "")).toList.filter (fun c => c.isLower || c.isDigit) ≠ [] := by
  exact ⟨by decide, by decide⟩

/-- C2 (amended): `generatePropertyID` is a pure function of its two string
arguments that lower-cases the concatenation, strips everything but lowercase
letters and digits, truncates to at most 25 characters and prefixes the
constant tag, substituting the sentinel `"unknown"` when the cleaned string is
empty; the result is never the empty string (but it can coincide with the
identifier of an input whose cleaned form is literally `"unknown"`). -/
theorem claim2_generatePropertyID_amended (a c : String) :
    generatePropertyID a c ≠ "" ∧
      (generatePropertyID a c).toList.take 5 = "prop_".toList ∧
      (generatePropertyID a c).length ≤ 30 ∧
      generatePropertyID "" "" = "prop_unknown" := by
  have h : ∃ x : String, generatePropertyID a c = "prop_" ++ x ∧ x.length ≤ 25 ∧ x ≠ "" := by
    unfold generatePropertyID
    dsimp only
    split
    · split
      · exact ⟨"unknown", rfl, by decide, by decide⟩
      · rename_i hemp
        exact ⟨_, rfl, List.length_take_le _ _, hemp⟩
    · rename_i h25
      split
      · exact ⟨"unknown", rfl, by decide, by decide⟩
      · rename_i hemp
        refine ⟨_, rfl, ?_, hemp⟩
        omega
  obtain ⟨x, hx, hlen, hne⟩ := h
  refine ⟨?_, ?_, ?_, by decide⟩
  · rw [hx]
    intro h0
    have hlen0 := congrArg String.length h0
    rw [String.length_append] at hlen0
    have h5 : ("prop_" : String).length = 5 := by decide
    have h00 : ("" : String).length = 0 := by decide
    rw [h5, h00] at hlen0
    omega
  · rw [hx]
    show (("prop_" : String).data ++ x.data).take 5 = ("prop_" : String).data
    have h5 : (("prop_" : String).data).length = 5 := by decide
    rw [← h5, List.take_left]
  · rw [hx, String.length_append]
    have h5 : ("prop_" : String).length = 5 := by decide
    omega

/-- Helper: a value of the dedup map of a crawl run over the real page extractor
comes from some successful `scrapePage` outcome. -/
theorem crawl_value_from_page (rx : PageRegexes) (env : String → FetchResult)
    (city state neighborhood status : String) (m : List (String × Property))
    (kv : String × Property)
    (hok : (ScrapeNeighborhood (fun url => scrapePageGo rx (env url)) city state neighborhood
      status).outcome = .ok m)
    (hkv : kv ∈ m) :
    ∃ fr props, scrapePageGo rx fr = .ok props ∧ kv.2 ∈ props := by
  obtain ⟨ys, _, hm, hsrc⟩ := crawlLoop_ok_spec (fun url => scrapePageGo rx (env url))
    (pageURL city state neighborhood status) 3 1 [] [] [] m hok
  subst hm
  rcases mem_insertAll ys [] kv hkv with h | h
  · exact absurd h (by simp)
  · obtain ⟨u, l, hu, hl⟩ := hsrc kv.2 h
    exact ⟨env u, l, hu, hl⟩

/-- C3: every record in the output of the text-proximity page extractor — and
hence every record in the final output of the multi-page crawl driven by it —
has a non-empty address and a strictly positive price. -/
theorem claim3_admission_invariant :
    (∀ (rx : PageRegexes) (fr : FetchResult) (props : List Property) (p : Property),
        scrapePageGo rx fr = .ok props → p ∈ props → p.Address ≠ "" ∧ 0 < p.Price) ∧
    (∀ (rx : PageRegexes) (env : String → FetchResult)
        (city state neighborhood status : String) (m : List (String × Property))
        (kv : String × Property),
        (ScrapeNeighborhood (fun url => scrapePageGo rx (env url)) city state neighborhood
          status).outcome = .ok m →
        kv ∈ m → kv.2.Address ≠ "" ∧ 0 < kv.2.Price) := by
  constructor
  · intro rx fr props p hok hp
    have h := scrapePageGo_ok_mem rx fr props p hok hp
    exact ⟨h.1, h.2.1⟩
  · intro rx env city state neighborhood status m kv hok hkv
    obtain ⟨fr, props, hfr, hmem⟩ :=
      crawl_value_from_page rx env city state neighborhood status m kv hok hkv
    have h := scrapePageGo_ok_mem rx fr props kv.2 hfr hmem
    exact ⟨h.1, h.2.1⟩

/-- Witness for C3 at the demo page. -/
theorem claim3_witness : demoProp.Address ≠ "" ∧ 0 < demoProp.Price :=
  claim3_admission_invariant.1 rxDemo frDemo [demoProp] demoProp (by rfl) (by simp)

/-- C7: in every record extracted by the page extractor and by the second-site
detail extractor, the price-per-area field equals the integer quotient of price
by area when both are strictly positive, and stays at its unset zero value
otherwise. -/
theorem claim7_price_per_area :
    (∀ (rx : PageRegexes) (fr : FetchResult) (props : List Property) (p : Property),
        scrapePageGo rx fr = .ok props → p ∈ props →
        p.PricePerSqFt =
          (if 0 < p.Price ∧ 0 < p.SquareFeet then p.Price / p.SquareFeet else 0)) ∧
    (∀ (rrx : RedfinRegexes) (env : String → FetchResult) (url : String) (p : Property),
        scrapeRedfinProperty rrx env url = .ok p →
        p.PricePerSqFt =
          (if 0 < p.Price ∧ 0 < p.SquareFeet then p.Price / p.SquareFeet else 0)) := by
  constructor
  · intro rx fr props p hok hp
    exact (scrapePageGo_ok_mem rx fr props p hok hp).2.2.2.2.2.2
  · intro rrx env url p h
    have hurl := redfinFromURL_psp url
    have hbe := redfinBestEffort_psp (redfinFromURL url)
    have hbest : p = redfinBestEffort (redfinFromURL url) →
        p.PricePerSqFt =
          (if 0 < p.Price ∧ 0 < p.SquareFeet then p.Price / p.SquareFeet else 0) := by
      intro hp
      have hPrice : p.Price = 0 := by rw [hp, hbe.1, hurl.1]
      have hPpsf : p.PricePerSqFt = 0 := by rw [hp, hbe.2.2, hurl.2.2]
      rw [hPpsf, if_neg (by simp [hPrice])]
    unfold scrapeRedfinProperty at h
    rcases henv : env url with e | ⟨code, status, docRes⟩ <;> rw [henv] at h
    · dsimp only at h
      exact hbest (by injection h with h2; exact h2.symm)
    · dsimp only at h
      split at h
      · exact hbest (by injection h with h2; exact h2.symm)
      · rcases docRes with e | d
        · exact hbest (by injection h with h2; exact h2.symm)
        · have hp : p = redfinSuccess rrx d (redfinFromURL url) := by
            injection h with h2; exact h2.symm
          rw [hp, redfinSuccess_ppsf, hurl.2.2]

/-- Witness for C7: the demo record with price 1,000,000 and area 2,000 gets
price-per-area 500; a record with area 0 keeps it unset is an instance of the
else branch of the proved equation. -/
theorem claim7_witness :
    (demoProp.PricePerSqFt =
      (if 0 < demoProp.Price ∧ 0 < demoProp.SquareFeet
       then demoProp.Price / demoProp.SquareFeet else 0)) ∧
      demoProp.Price = 1000000 ∧ demoProp.SquareFeet = 2000 ∧ demoProp.PricePerSqFt = 500 :=
  ⟨claim7_price_per_area.1 rxDemo frDemo [demoProp] demoProp (by rfl) (by simp),
    rfl, rfl, rfl⟩

/-- C10: every record admitted by the text-proximity page extractor carries the
hardcoded status `"sold"`, city `"Honolulu"`, state `"HI"` and postal code
`"96822"`, for any oracle behaviour and any requested arguments; hence the
listing-search crawl never yields records for any other location or status. -/
theorem claim10_hardcoded_location :
    (∀ (rx : PageRegexes) (fr : FetchResult) (props : List Property) (p : Property),
        scrapePageGo rx fr = .ok props → p ∈ props →
        p.Status = "sold" ∧ p.City = "Honolulu" ∧ p.State = "HI" ∧ p.ZipCode = "96822") ∧
    (∀ (rx : PageRegexes) (env : String → FetchResult)
        (city state neighborhood status : String) (m : List (String × Property))
        (kv : String × Property),
        (ScrapeNeighborhood (fun url => scrapePageGo rx (env url)) city state neighborhood
          status).outcome = .ok m →
        kv ∈ m →
        kv.2.Status = "sold" ∧ kv.2.City = "Honolulu" ∧ kv.2.State = "HI" ∧
          kv.2.ZipCode = "96822") := by
  constructor
  · intro rx fr props p hok hp
    have h := scrapePageGo_ok_mem rx fr props p hok hp
    exact ⟨h.2.2.1, h.2.2.2.1, h.2.2.2.2.1, h.2.2.2.2.2.1⟩
  · intro rx env city state neighborhood status m kv hok hkv
    obtain ⟨fr, props, hfr, hmem⟩ :=
      crawl_value_from_page rx env city state neighborhood status m kv hok hkv
    have h := scrapePageGo_ok_mem rx fr props kv.2 hfr hmem
    exact ⟨h.2.2.1, h.2.2.2.1, h.2.2.2.2.1, h.2.2.2.2.2.1⟩

/-- Witness for C10 at the demo page. -/
theorem claim10_witness :
    demoProp.Status = "sold" ∧ demoProp.City = "Honolulu" ∧ demoProp.State = "HI" ∧
      demoProp.ZipCode = "96822" :=
  claim10_hardcoded_location.1 rxDemo frDemo [demoProp] demoProp (by rfl) (by simp)

/-- A mocked page fetcher yielding exactly 20, 20 and 5 records on pages 1-3. -/
def mockFetch2205 : String → Except String (List Property) := fun url =>
  if url = pageURL "Honolulu" "HI" "manoa" "sold" 1 then .ok (List.replicate 20 { ID := "a" })
  else if url = pageURL "Honolulu" "HI" "manoa" "sold" 2 then
    .ok (List.replicate 20 { ID := "b" })
  else .ok (List.replicate 5 { ID := "c" })

/-- C4: for every page fetcher and every crawl arguments, the pagination
controller fetches pages in increasing order starting at page 1, fetches at
most 3 pages, and every fetched page except the last yielded at least 20
records — so no page is fetched after the first page that yields fewer than 20;
in particular, a fetcher yielding 20, 20 and 5 records on pages 1-3 gets
exactly pages 1, 2 and 3 fetched and no page 4. -/
theorem claim4_pagination :
    (∀ (fetch : String → Except String (List Property))
        (city state neighborhood status : String),
      ∃ k, 1 ≤ k ∧ k ≤ 3 ∧
        (ScrapeNeighborhood fetch city state neighborhood status).pagesFetched =
          List.range' 1 k ∧
        ∀ i, 1 ≤ i → i < k →
          ∃ l, fetch (pageURL city state neighborhood status i) = Except.ok l ∧
            20 ≤ l.length) ∧
    (ScrapeNeighborhood mockFetch2205 "Honolulu" "HI" "manoa" "sold").pagesFetched =
      [1, 2, 3] := by
  constructor
  · intro fetch city state neighborhood status
    rcases hf1 : fetch (pageURL city state neighborhood status 1) with e1 | l1
    · refine ⟨1, by omega, by omega, ?_, fun i h1 h2 => absurd h2 (by omega)⟩
      simp [ScrapeNeighborhood, crawlLoop, hf1, List.range']
    · by_cases hl1 : l1.length < 20
      · refine ⟨1, by omega, by omega, ?_, fun i h1 h2 => absurd h2 (by omega)⟩
        simp [ScrapeNeighborhood, crawlLoop, hf1, hl1, List.range']
      · rcases hf2 : fetch (pageURL city state neighborhood status 2) with e2 | l2
        · refine ⟨2, by omega, by omega, ?_, ?_⟩
          · simp [ScrapeNeighborhood, crawlLoop, hf1, hl1, hf2, List.range']
          · intro i h1 h2
            have hi : i = 1 := by omega
            subst hi
            exact ⟨l1, hf1, by omega⟩
        · by_cases hl2 : l2.length < 20
          · refine ⟨2, by omega, by omega, ?_, ?_⟩
            · simp [ScrapeNeighborhood, crawlLoop, hf1, hl1, hf2, hl2, List.range']
            · intro i h1 h2
              have hi : i = 1 := by omega
              subst hi
              exact ⟨l1, hf1, by omega⟩
          · refine ⟨3, by omega, by omega, ?_, ?_⟩
            · rcases hf3 : fetch (pageURL city state neighborhood status 3) with e3 | l3
              · simp [ScrapeNeighborhood, crawlLoop, hf1, hl1, hf2, hl2, hf3, List.range']
              · by_cases hl3 : l3.length < 20 <;>
                  simp [ScrapeNeighborhood, crawlLoop, hf1, hl1, hf2, hl2, hf3, hl3,
                    List.range']
            · intro i h1 h2
              interval_cases i
              · exact ⟨l1, hf1, by omega⟩
              · exact ⟨l2, hf2, by omega⟩
  · rfl

/-- C5: after a crawl in which every visited page succeeds (so the outcome is
the dedup map) and all yielded records carry non-empty identifiers, the map
holds exactly one record per distinct yielded identifier, and for each
identifier the surviving record is the last one yielded (last-write-wins across
pages and within a page). -/
theorem claim5_dedup_last_write_wins (fetch : String → Except String (List Property))
    (city state neighborhood status : String) (m : List (String × Property))
    (hok : (ScrapeNeighborhood fetch city state neighborhood status).outcome = .ok m)
    (hids : ∀ p ∈ (ScrapeNeighborhood fetch city state neighborhood status).yielded,
      p.ID ≠ "") :
    (∀ id, mapLookup m id =
      lastWith id (ScrapeNeighborhood fetch city state neighborhood status).yielded) ∧
    m.length =
      (((ScrapeNeighborhood fetch city state neighborhood status).yielded.map
        Property.ID).dedup).length := by
  obtain ⟨ys, hy, hm, _⟩ := crawlLoop_ok_spec fetch (pageURL city state neighborhood status)
    3 1 [] [] [] m hok
  have hy2 : (ScrapeNeighborhood fetch city state neighborhood status).yielded = ys := by
    rw [show (ScrapeNeighborhood fetch city state neighborhood status).yielded =
      (crawlLoop fetch (pageURL city state neighborhood status) 3 1 [] [] []).yielded from rfl,
      hy]
    simp
  rw [hy2] at hids ⊢
  subst hm
  constructor
  · intro id
    rw [mapLookup_insertAll ys [] id hids]
    cases lastWith id ys <;> simp [mapLookup]
  · exact insertAll_length ys hids

/-- A fetcher with duplicated identifiers across pages for the C5 witness:
pages 1 and 2 yield 20 records each with identifier "x" (prices 1 and 2), page
3 yields one record with identifier "x" and price 3. -/
def mockFetchDup : String → Except String (List Property) := fun url =>
  if url = pageURL "Honolulu" "HI" "manoa" "sold" 1 then
    .ok (List.replicate 20 { ID := "x", Price := 1 })
  else if url = pageURL "Honolulu" "HI" "manoa" "sold" 2 then
    .ok (List.replicate 20 { ID := "x", Price := 2 })
  else .ok [{ ID := "x", Price := 3 }]

/-- The dedup map of the duplicated-identifier crawl. -/
def dupMap : List (String × Property) :=
  match (ScrapeNeighborhood mockFetchDup "Honolulu" "HI" "manoa" "sold").outcome with
  | .ok m => m
  | .error _ => []

/-- Witness for C5: in the duplicated-identifier crawl, identifier "x" survives
with the page-3 record and the map has exactly one entry. -/
theorem claim5_witness :
    (mapLookup dupMap "x" =
      lastWith "x" (ScrapeNeighborhood mockFetchDup "Honolulu" "HI" "manoa" "sold").yielded) ∧
    dupMap.length =
      ((((ScrapeNeighborhood mockFetchDup "Honolulu" "HI" "manoa" "sold").yielded.map
        Property.ID).dedup)).length ∧
    mapLookup dupMap "x" = some { ID := "x", Price := 3 } ∧ dupMap.length = 1 := by
  have h := claim5_dedup_last_write_wins mockFetchDup "Honolulu" "HI" "manoa" "sold" dupMap
    (by rfl) (by decide)
  exact ⟨h.1 "x", h.2, by rfl, by rfl⟩

/-- C6: if every page before page `k` succeeded with at least 20 records and the
fetch of page `k` (of at most 3) fails, the whole crawl returns the error
message carrying the failing page number, and no records are returned. -/
theorem claim6_abort_with_page_number (fetch : String → Except String (List Property))
    (city state neighborhood status : String) (k : Nat) (e : String)
    (hk1 : 1 ≤ k) (hk3 : k ≤ 3)
    (hprev : ∀ i, 1 ≤ i → i < k →
      ∃ l, fetch (pageURL city state neighborhood status i) = Except.ok l ∧ 20 ≤ l.length)
    (hfail : fetch (pageURL city state neighborhood status k) = .error e) :
    (ScrapeNeighborhood fetch city state neighborhood status).outcome =
      .error ("failed to scrape page " ++ toString k ++ ": " ++ e) := by
  interval_cases k
  · simp [ScrapeNeighborhood, crawlLoop, hfail]
  · obtain ⟨l1, hf1, hl1⟩ := hprev 1 (by omega) (by omega)
    simp [ScrapeNeighborhood, crawlLoop, hf1, hfail, show ¬l1.length < 20 from by omega]
  · obtain ⟨l1, hf1, hl1⟩ := hprev 1 (by omega) (by omega)
    obtain ⟨l2, hf2, hl2⟩ := hprev 2 (by omega) (by omega)
    simp [ScrapeNeighborhood, crawlLoop, hf1, hf2, hfail,
      show ¬l1.length < 20 from by omega, show ¬l2.length < 20 from by omega]

/-- A fetcher that succeeds on page 1 with 20 records and fails on page 2. -/
def mockFetchFail2 : String → Except String (List Property) := fun url =>
  if url = pageURL "Honolulu" "HI" "manoa" "sold" 1 then
    .ok (List.replicate 20 { ID := "a" })
  else .error "connection reset"

/-- Witness for C6 at the concrete failing fetcher. -/
theorem claim6_witness :
    (ScrapeNeighborhood mockFetchFail2 "Honolulu" "HI" "manoa" "sold").outcome =
      .error ("failed to scrape page " ++ toString 2 ++ ": " ++ "connection reset") :=
  claim6_abort_with_page_number mockFetchFail2 "Honolulu" "HI" "manoa" "sold" 2
    "connection reset" (by omega) (by omega)
    (fun i h1 h2 => by
      have hi : i = 1 := by omega
      subst hi
      exact ⟨List.replicate 20 { ID := "a" }, by rfl, by simp⟩)
    (by rfl)

/-- C8: the statistics extractor applies the anchored free-text fallback if and
only if the structured (labeled-row) pass left the median sale price at its
unset zero value; when the fallback runs, each metric's pattern is applied
independently, and a page matching `down X%` gets its year-over-year change set
to the negation of the numeric value of the captured digits `X`. -/
theorem claim8_stats_fallback (env : String → FetchResult)
    (now city state neighborhood : String) (code : Nat) (status : String) (d : PageDoc)
    (henv : env (neighborhoodStatsURL city state neighborhood) =
      .response code status (.ok d)) :
    ((structuredStats now city state neighborhood d.trendRows).MedianSalePrice ≠ 0 →
      ScrapeNeighborhoodStats env now city state neighborhood =
        .ok (structuredStats now city state neighborhood d.trendRows)) ∧
    ((structuredStats now city state neighborhood d.trendRows).MedianSalePrice = 0 →
      ScrapeNeighborhoodStats env now city state neighborhood =
        .ok (statsFallback d.text (structuredStats now city state neighborhood d.trendRows)) ∧
      (∀ ds, reFind "down " Char.isDigit "%" d.text = some ds →
        (statsFallback d.text (structuredStats now city state neighborhood
          d.trendRows)).YearOverYearChange = -(natOfDigits ds.toList : ℚ)) ∧
      (statsFallback d.text (structuredStats now city state neighborhood
          d.trendRows)).AverageDaysOnMarket =
        (match reFind "" Char.isDigit " days on the market" d.text with
         | some m => parseInt m
         | none => (structuredStats now city state neighborhood
             d.trendRows).AverageDaysOnMarket)) := by
  have hrun : ScrapeNeighborhoodStats env now city state neighborhood =
      (if (structuredStats now city state neighborhood d.trendRows).MedianSalePrice = 0 then
        Except.ok (statsFallback d.text (structuredStats now city state neighborhood
          d.trendRows))
      else Except.ok (structuredStats now city state neighborhood d.trendRows)) := by
    unfold ScrapeNeighborhoodStats
    rw [henv]
  constructor
  · intro hne
    rw [hrun, if_neg hne]
  · intro heq
    refine ⟨by rw [hrun, if_pos heq], ?_, ?_⟩
    · intro ds hds
      rw [statsFallback_yoy, hds]
      obtain ⟨hne, hdig⟩ := reFind_digits _ _ _ _ hds
      have hval := parsePercent_digits ds.toList hne hdig
      dsimp only
      rw [show parsePercent (ds ++ "%") = (natOfDigits ds.toList : ℚ) from hval]
    · rw [statsFallback_days]

/-- A document whose structured rows already deliver the median sale price. -/
def docRows : PageDoc := { trendRows := [("Median Sale Price", "$1,000,000")] }

/-- An environment serving `docRows` with status 200. -/
def envRows : String → FetchResult := fun _ => .response 200 "200 OK" (.ok docRows)

/-- A document with no structured rows and fallback-phrased text. -/
def docText : PageDoc :=
  { text := "Prices are down 12% and homes spend 30 days on the market" }

/-- An environment serving `docText` with status 200. -/
def envText : String → FetchResult := fun _ => .response 200 "200 OK" (.ok docText)

/-- Witness for C8: with a structured median present the result is exactly the
structured record (no fallback), and on the fallback document containing
"down 12%" the year-over-year change becomes -12. -/
theorem claim8_witness :
    ScrapeNeighborhoodStats envRows "T" "Honolulu" "HI" "manoa" =
      .ok (structuredStats "T" "Honolulu" "HI" "manoa" docRows.trendRows) ∧
    (statsFallback docText.text
      (structuredStats "T" "Honolulu" "HI" "manoa" docText.trendRows)).YearOverYearChange =
      -12 := by
  constructor
  · exact (claim8_stats_fallback envRows "T" "Honolulu" "HI" "manoa" 200 "200 OK" docRows
      rfl).1 (by decide)
  · have h := ((claim8_stats_fallback envText "T" "Honolulu" "HI" "manoa" 200 "200 OK" docText
      rfl).2 (by decide)).2.1 "12" (by decide)
    rw [h]
    decide

/-- Whether a statistics call produced a record rather than an error. -/
def returnsRecord (e : Except String MarketStats) : Bool :=
  match e with
  | .ok _ => true
  | .error _ => false

/-- An environment whose every fetch returns HTTP 403 with a parseable (empty)
document body. -/
def env403doc : String → FetchResult := fun _ => .response 403 "403 Forbidden" (.ok {})

/-- C9 counterexample: a 403 response with a parseable body makes both
statistics extractors return a statistics record, not a failure carrying the
status code — the response status is never inspected. -/
theorem claim9_counterexample :
    returnsRecord (ScrapeNeighborhoodStats env403doc "T" "Honolulu" "HI" "manoa") = true ∧
    returnsRecord (ScrapeMarketStats env403doc "T" "Honolulu" "HI") = true := by
  exact ⟨rfl, rfl⟩

/-- C9 (amended): the statistics extractors surface transport errors and
document-parse errors as failures, but never inspect the HTTP status code: any
response whose body parses yields a statistics record, whatever the status. -/
theorem claim9_status_not_checked (env : String → FetchResult)
    (now city state neighborhood : String) (code : Nat) (status : String) (d : PageDoc)
    (e : String) :
    (env (neighborhoodStatsURL city state neighborhood) = .response code status (.ok d) →
      returnsRecord (ScrapeNeighborhoodStats env now city state neighborhood) = true) ∧
    (env (neighborhoodStatsURL city state neighborhood) = .transportError e →
      ScrapeNeighborhoodStats env now city state neighborhood = .error e) ∧
    (env (neighborhoodStatsURL city state neighborhood) = .response code status (.error e) →
      ScrapeNeighborhoodStats env now city state neighborhood = .error e) ∧
    (env (marketStatsURL city state) = .response code status (.ok d) →
      returnsRecord (ScrapeMarketStats env now city state) = true) := by
  refine ⟨?_, ?_, ?_, ?_⟩
  · intro henv
    unfold ScrapeNeighborhoodStats
    rw [henv]
    dsimp only
    split <;> rfl
  · intro henv
    unfold ScrapeNeighborhoodStats
    rw [henv]
  · intro henv
    unfold ScrapeNeighborhoodStats
    rw [henv]
  · intro henv
    unfold ScrapeMarketStats
    rw [henv]
    dsimp only
    split <;> rfl

/-- Witness for C9 (amended) at the concrete 403 environment. -/
theorem claim9_witness :
    returnsRecord (ScrapeNeighborhoodStats env403doc "T" "Honolulu" "HI" "manoa") = true :=
  (claim9_status_not_checked env403doc "T" "Honolulu" "HI" "manoa" 403 "403 Forbidden" {}
    "unused").1 rfl

end Scraper
